import Mathlib

/-!
Verification development for the diagrams engine (grid layout + frame-based
timeline animation).  The definitions below are a shallow embedding of
src/engine/useTimeline.ts, src/engine/useGridLayout.ts and src/types.ts:
JavaScript numbers are idealised as rationals, JS records keyed by strings as
association lists (later writes win, so lookups search the reversed list),
thrown errors as Except, and remotion's clamped linear interpolate as a total
piecewise-linear function (remotion validates that the input range is strictly
increasing and throws otherwise; theorems that depend on a ramp being
non-degenerate carry the corresponding positivity hypotheses).
-/

namespace Diagrams

/-! ### Numeric helpers -/

/-- JS Math.round: round half toward positive infinity. -/
def jround (q : ℚ) : ℚ := ((⌊q + 1/2⌋ : ℤ) : ℚ)

/-- remotion interpolate over a two-point input range [a, b] → [y0, y1]
with extrapolateLeft/Right both clamp. -/
def interpolate2 (x a b y0 y1 : ℚ) : ℚ :=
  if x ≤ a then y0
  else if b ≤ x then y1
  else y0 + (y1 - y0) * ((x - a) / (b - a))

/-- remotion interpolate over the four-point range [a, b, c, d] → [0, 1, 1, 0]
with clamping at both ends, as used for a fade-in/hold/fade-out envelope. -/
def interpolate4 (x a b c d : ℚ) : ℚ :=
  if x ≤ a then 0
  else if x ≤ b then (x - a) / (b - a)
  else if x ≤ c then 1
  else if x ≤ d then 1 - (x - c) / (d - c)
  else 0

/-- JS a ?? b on option-typed values (and a || b when a is an object/undefined). -/
def jsOr {α : Type} (a b : Option α) : Option α :=
  match a with
  | some v => some v
  | none => b

/-- JS truthiness of an optional string: undefined and the empty string are falsy. -/
def truthyStr : Option String → Bool
  | none => false
  | some s => s != ""

/-! ### Timeline data model (src/types.ts) -/

/-- Step label shown by the step indicator. -/
structure StepLabel where
  num : ℚ
  text : String
deriving DecidableEq, Repr

/-- Action kind of a flattened event (the TS union of step actions and phases). -/
inductive EvtAction where
  | fillBox
  | dimBox
  | drawLine
  | showContainer
  | hold
  | dim
  | reveal
deriving DecidableEq, Repr

/-- Whether a flattened event came from a top-level phase or a sequence step. -/
inductive EvtSource where
  | phase
  | step
deriving DecidableEq, Repr

/-- Flattened timed event (type FlatEvent in useTimeline.ts). -/
structure FlatEvent where
  action : EvtAction
  source : EvtSource
  target : Option String := none
  startFrame : ℚ
  durationFrames : ℚ
  step : Option StepLabel := none
  group : Option String := none
deriving DecidableEq, Repr

/-- Animation step of a sequence phase (type AnimationStep in src/types.ts). -/
inductive AnimationStep where
  | fillBox (target : String) (duration : Option ℚ) (step : Option StepLabel)
      (group : Option String)
  | dimBox (target : String) (duration : Option ℚ) (step : Option StepLabel)
      (group : Option String)
  | drawLine (target : String) (duration : Option ℚ) (step : Option StepLabel)
      (group : Option String)
  | showContainer (target : String) (duration : Option ℚ) (step : Option StepLabel)
      (group : Option String)
  | hold (duration : ℚ)
  | parallel (steps : List AnimationStep) (group : Option String)
deriving Repr

/-- Timeline phase (type Phase in src/types.ts). -/
inductive Phase where
  | hold (duration : ℚ)
  | dim (duration : ℚ)
  | reveal (duration : ℚ)
  | sequence (steps : List AnimationStep)
deriving Repr

/-! ### Timeline flattening (flattenTimeline in useTimeline.ts) -/

/-- Per-action default duration in seconds (getDefaultDuration). -/
def defaultDuration : AnimationStep → ℚ
  | .fillBox .. => 4/5
  | .dimBox .. => 4/5
  | .drawLine .. => 2/5
  | .showContainer .. => 2/5
  | _ => 2/5

mutual

/-- flattenStep: flatten one step at the given cursor, returning the produced
events together with the cursor after the step. -/
def flattenStep (fps : ℚ) (s : AnimationStep) (parentGroup : Option String)
    (cursor : ℚ) : List FlatEvent × ℚ :=
  match s with
  | .hold d =>
      let df := jround (d * fps)
      ([{ action := .hold, source := .step, startFrame := cursor,
          durationFrames := df }], cursor + df)
  | .parallel steps g =>
      let r := flattenPar fps steps (jsOr g parentGroup) cursor
      (r.1, cursor + r.2)
  | .fillBox t d lb g =>
      let df := jround ((d.getD (defaultDuration (.fillBox t d lb g))) * fps)
      ([{ action := .fillBox, source := .step, target := some t,
          startFrame := cursor, durationFrames := df, step := lb,
          group := jsOr g parentGroup }], cursor + df)
  | .dimBox t d lb g =>
      let df := jround ((d.getD (defaultDuration (.dimBox t d lb g))) * fps)
      ([{ action := .dimBox, source := .step, target := some t,
          startFrame := cursor, durationFrames := df, step := lb,
          group := jsOr g parentGroup }], cursor + df)
  | .drawLine t d lb g =>
      let df := jround ((d.getD (defaultDuration (.drawLine t d lb g))) * fps)
      ([{ action := .drawLine, source := .step, target := some t,
          startFrame := cursor, durationFrames := df, step := lb,
          group := jsOr g parentGroup }], cursor + df)
  | .showContainer t d lb g =>
      let df := jround ((d.getD (defaultDuration (.showContainer t d lb g))) * fps)
      ([{ action := .showContainer, source := .step, target := some t,
          startFrame := cursor, durationFrames := df, step := lb,
          group := jsOr g parentGroup }], cursor + df)

/-- Parallel children: every child is flattened from the shared start cursor;
the second component is the running maximum of the children's durations
(Math.max folding in the source, which is order-insensitive). -/
def flattenPar (fps : ℚ) (ss : List AnimationStep) (grp : Option String)
    (start : ℚ) : List FlatEvent × ℚ :=
  match ss with
  | [] => ([], 0)
  | s :: rest =>
      let r := flattenStep fps s grp start
      let rr := flattenPar fps rest grp start
      (r.1 ++ rr.1, max (r.2 - start) rr.2)

end

/-- Steps of a sequence phase play one after another, threading the cursor. -/
def flattenSeq (fps : ℚ) (ss : List AnimationStep) (cursor : ℚ) :
    List FlatEvent × ℚ :=
  match ss with
  | [] => ([], cursor)
  | s :: rest =>
      let r := flattenStep fps s none cursor
      let rr := flattenSeq fps rest r.2
      (r.1 ++ rr.1, rr.2)

/-- Top-level phases (the loop at the end of flattenTimeline). -/
def flattenPhases (fps : ℚ) (ps : List Phase) (cursor : ℚ) :
    List FlatEvent × ℚ :=
  match ps with
  | [] => ([], cursor)
  | .hold d :: rest =>
      let df := jround (d * fps)
      let rr := flattenPhases fps rest (cursor + df)
      ({ action := .hold, source := .phase, startFrame := cursor,
         durationFrames := df } :: rr.1, rr.2)
  | .dim d :: rest =>
      let df := jround (d * fps)
      let rr := flattenPhases fps rest (cursor + df)
      ({ action := .dim, source := .phase, startFrame := cursor,
         durationFrames := df } :: rr.1, rr.2)
  | .reveal d :: rest =>
      let df := jround (d * fps)
      let rr := flattenPhases fps rest (cursor + df)
      ({ action := .reveal, source := .phase, startFrame := cursor,
         durationFrames := df } :: rr.1, rr.2)
  | .sequence ss :: rest =>
      let r := flattenSeq fps ss cursor
      let rr := flattenPhases fps rest r.2
      (r.1 ++ rr.1, rr.2)

/-- flattenTimeline: nested phases into a flat list of timed events. -/
def flattenTimeline (tl : List Phase) (fps : ℚ) : List FlatEvent :=
  (flattenPhases fps tl 0).1

/-- Maximum (start + duration) over all events; 0 for the empty list
(Math.max spread with an emptiness guard). -/
def totalFramesOf (events : List FlatEvent) : ℚ :=
  match events with
  | [] => 0
  | e :: rest =>
      rest.foldl (fun m x => max m (x.startFrame + x.durationFrames))
        (e.startFrame + e.durationFrames)

/-- calculateTotalDuration, exported for composition registration. -/
def calculateTotalDuration (tl : List Phase) (fps : ℚ) : ℚ :=
  totalFramesOf (flattenTimeline tl fps)

/-! ### Global floor and opacity (computeGlobals in useTimeline.ts) -/

/-- Sequence start for the no-dim branch: ends of the leading phase-sourced
hold/dim/reveal events; the loop breaks at the first other event. -/
def seqStartOf : List FlatEvent → ℚ → ℚ
  | [], acc => acc
  | e :: rest, acc =>
      if e.source = .phase ∧
          (e.action = .hold ∨ e.action = .dim ∨ e.action = .reveal) then
        seqStartOf rest (max acc (e.startFrame + e.durationFrames))
      else acc

/-- Dim-phase branch of computeGlobals: floor 1 then 0 at the phase end,
opacity ramping 1 → 0 across the phase and snapping back to 1 once the first
post-dim event starts. -/
def dimPhaseGlobals (events : List FlatEvent) (frame : ℚ) (de : FlatEvent) :
    ℚ × ℚ :=
  let dimStart := de.startFrame
  let dimEnd := dimStart + de.durationFrames
  let fo : ℚ × ℚ :=
    if dimEnd ≤ frame then (0, 0)
    else if dimStart ≤ frame then
      (1, interpolate2 frame dimStart dimEnd 1 0)
    else (1, 1)
  match events.find? (fun e =>
      decide (dimEnd ≤ e.startFrame ∧ e.action ≠ .dim)) with
  | some fp => if fp.startFrame ≤ frame then (fo.1, 1) else fo
  | none => fo

/-- computeGlobals before the reveal override: the dim-phase branch, or the
hard cut at the sequence start when no dim phase exists. -/
def computeGlobalsBase (events : List FlatEvent) (frame : ℚ) : ℚ × ℚ :=
  match events.find? (fun e => decide (e.action = .dim)) with
  | some de => dimPhaseGlobals events frame de
  | none =>
      if seqStartOf events 0 ≤ frame then (0, 1) else (1, 1)

/-- computeGlobals: (globalFloor, globalOpacity) at a frame. -/
def computeGlobals (events : List FlatEvent) (frame : ℚ) : ℚ × ℚ :=
  let base := computeGlobalsBase events frame
  match events.find? (fun e => decide (e.action = .reveal)) with
  | some re =>
      let revealStart := re.startFrame
      let revealEnd := revealStart + re.durationFrames
      if revealEnd ≤ frame then (1, base.2)
      else if revealStart ≤ frame then
        (max base.1 (interpolate2 frame revealStart revealEnd 0 1), base.2)
      else base
  | none => base

/-! ### Per-event envelopes and group fade-out triggers -/

/-- The animation-only event list (holds and dim/reveal phases filtered out). -/
def animEventsOf (events : List FlatEvent) : List FlatEvent :=
  events.filter (fun e => decide (e.action ≠ .hold ∧ e.action ≠ .dim ∧
    e.action ≠ .reveal))

/-- Fade-out lookahead offset: 2 for drawLine (arrows), 3 otherwise. -/
def lookaheadOf (e : FlatEvent) : ℕ :=
  if e.action = .drawLine then 2 else 3

/-- computeFadeOutStart: end instant of the event lookahead positions later,
or none when that index is past the end of the animation list. -/
def computeFadeOutStart (A : List FlatEvent) (i : ℕ) (e : FlatEvent) :
    Option ℚ :=
  match A[i + lookaheadOf e]? with
  | none => none
  | some t => some (t.startFrame + t.durationFrames)

/-- The group trigger map; the inner Option models JS Infinity as none. -/
def GroupMap : Type := String → Option (Option ℚ)

/-- Empty group map. -/
def gmEmpty : GroupMap := fun _ => none

/-- Point update of a group map. -/
def gmSet (m : GroupMap) (g : String) (v : Option ℚ) : GroupMap :=
  fun s => if s = g then some v else m s

/-- One iteration of the first pass over animEvents building the latest
fade-out trigger per group (Infinity once any member has no lookahead target;
Math.max seeded with m[g] ?? 0 otherwise). -/
def groupStep (A : List FlatEvent) (m : GroupMap) (i : ℕ) (e : FlatEvent) :
    GroupMap :=
  match e.group with
  | none => m
  | some g =>
      if g = "" then m
      else
        match computeFadeOutStart A i e with
        | none => gmSet m g none
        | some f =>
            match m g with
            | some none => gmSet m g none
            | some (some prev) => gmSet m g (some (max prev f))
            | none => gmSet m g (some (max 0 f))

/-- First pass: latest fade-out trigger per lifecycle group
(the indexed for-loop over animEvents). -/
def groupMap (A : List FlatEvent) : GroupMap :=
  (List.range A.length).foldl (fun m i =>
    match A[i]? with
    | none => m
    | some e => groupStep A m i e) gmEmpty

/-- Fade-out start actually used by an event: the shared group trigger when
the event carries a truthy group present in the map, else its own lookahead. -/
def fadeOutStartUsed (A : List FlatEvent) (gm : GroupMap) (i : ℕ)
    (e : FlatEvent) : Option ℚ :=
  match e.group with
  | some g =>
      if g = "" then computeFadeOutStart A i e
      else
        match gm g with
        | some t => t
        | none => computeFadeOutStart A i e
  | none => computeFadeOutStart A i e

/-- eventEnvelope: clamped fade-in ramp, optionally followed by a fixed
0.4 s fade-out whose start is clamped past the fade-in end. -/
def eventEnvelope (A : List FlatEvent) (gm : GroupMap) (fps frame : ℚ)
    (i : ℕ) (e : FlatEvent) : ℚ :=
  let onset := e.startFrame
  let fadeInEnd := onset + e.durationFrames
  match fadeOutStartUsed A gm i e with
  | none => interpolate2 frame onset fadeInEnd 0 1
  | some fos =>
      let fadeOutFrames := jround ((2/5) * fps)
      let afos := if fos ≤ fadeInEnd then fadeInEnd + 1 else fos
      interpolate4 frame onset fadeInEnd afos (afos + fadeOutFrames)

/-- eventDrawProgress: 0 → 1 across the event's own duration, clamped. -/
def eventDrawProgress (frame : ℚ) (e : FlatEvent) : ℚ :=
  interpolate2 frame e.startFrame (e.startFrame + e.durationFrames) 0 1

/-! ### Per-element animation state (useTimeline in useTimeline.ts) -/

/-- Resolved animation values for one element. -/
structure ElementAnimState where
  brightness : ℚ
  drawProgress : ℚ
  opacity : ℚ
deriving DecidableEq, Repr

/-- Dim level for nodes (DIM_NODE = 0.3). -/
def DIM_NODE : ℚ := 3/10

/-- Dim level for arrows (DIM_ARROW = 0.15). -/
def DIM_ARROW : ℚ := 3/20

/-- Dim level for containers (DIM_CONTAINER = 0.3). -/
def DIM_CONTAINER : ℚ := 3/10

/-- Indexed loop over animEvents accumulating the max of a value over the
events matching an action/target filter (the shape of every per-element loop
in useTimeline). -/
def rawMaxFold (A : List FlatEvent) (keep : FlatEvent → Bool)
    (v : ℕ → FlatEvent → ℚ) : ℚ :=
  (List.range A.length).foldl (fun acc i =>
    match A[i]? with
    | none => acc
    | some e => if keep e then max acc (v i e) else acc) 0

/-- Max envelope over fillBox events targeting the node (indexed loop). -/
def nodeBrightRaw (A : List FlatEvent) (gm : GroupMap) (fps frame : ℚ)
    (nid : String) : ℚ :=
  rawMaxFold A (fun e => decide (e.action = .fillBox ∧ e.target = some nid))
    (fun i e => eventEnvelope A gm fps frame i e)

/-- Max draw progress over fillBox events targeting the node. -/
def nodeDrawRaw (A : List FlatEvent) (frame : ℚ) (nid : String) : ℚ :=
  rawMaxFold A (fun e => decide (e.action = .fillBox ∧ e.target = some nid))
    (fun _ e => eventDrawProgress frame e)

/-- Max dimBox ramp (0 → 1) over dimBox events targeting the node. -/
def nodeDimAmount (A : List FlatEvent) (frame : ℚ) (nid : String) : ℚ :=
  rawMaxFold A (fun e => decide (e.action = .dimBox ∧ e.target = some nid))
    (fun _ e => eventDrawProgress frame e)

/-- Animation state of a node: the dimBox amount is subtracted after the
global floor is applied, then the result is clamped at 0. -/
def nodeState (events : List FlatEvent) (fps frame : ℚ) (nid : String) :
    ElementAnimState :=
  let A := animEventsOf events
  let gm := groupMap A
  let floor := (computeGlobals events frame).1
  let brightness :=
    max (max (nodeBrightRaw A gm fps frame nid) floor -
      nodeDimAmount A frame nid) 0
  { brightness := brightness
    drawProgress := max (nodeDrawRaw A frame nid) floor
    opacity := DIM_NODE + (1 - DIM_NODE) * brightness }

/-- End of the flow: last animation event's end plus a 2 s grace interval,
or totalFrames when there is no animation event. -/
def flowEndOf (events : List FlatEvent) (fps : ℚ) : ℚ :=
  match (animEventsOf events).reverse.find?
      (fun e => decide (e.action ≠ .hold)) with
  | some e => e.startFrame + e.durationFrames + jround (2 * fps)
  | none => totalFramesOf events

/-- Max envelope over drawLine events targeting the connection. -/
def connBrightRaw (A : List FlatEvent) (gm : GroupMap) (fps frame : ℚ)
    (cid : String) : ℚ :=
  rawMaxFold A (fun e => decide (e.action = .drawLine ∧ e.target = some cid))
    (fun i e => eventEnvelope A gm fps frame i e)

/-- Max draw progress over drawLine events targeting the connection. -/
def connDrawRaw (A : List FlatEvent) (frame : ℚ) (cid : String) : ℚ :=
  rawMaxFold A (fun e => decide (e.action = .drawLine ∧ e.target = some cid))
    (fun _ e => eventDrawProgress frame e)

/-- Animation state of a connection, including the final settlement ramp
ending at flowEnd. -/
def connState (events : List FlatEvent) (fps frame : ℚ) (cid : String) :
    ElementAnimState :=
  let A := animEventsOf events
  let gm := groupMap A
  let floor := (computeGlobals events frame).1
  let fe := flowEndOf events fps
  let finalRamp := interpolate2 frame (fe - jround ((2/5) * fps)) fe 0 1
  let brightness := max (max (connBrightRaw A gm fps frame cid) finalRamp) floor
  { brightness := brightness
    drawProgress := max (max (connDrawRaw A frame cid) floor) finalRamp
    opacity := DIM_ARROW + (1 - DIM_ARROW) * brightness }

/-- Max envelope over showContainer events targeting the container. -/
def containerShowRaw (A : List FlatEvent) (gm : GroupMap) (fps frame : ℚ)
    (cid : String) : ℚ :=
  rawMaxFold A (fun e =>
      decide (e.action = .showContainer ∧ e.target = some cid))
    (fun i e => eventEnvelope A gm fps frame i e)

/-- Node definition fields that affect layout and timeline resolution
(presentation-only fields of NodeDef are omitted). -/
structure AlignRef where
  containerId : String
  innerCol : ℚ
deriving DecidableEq, Repr

/-- Outer-grid position of a node. -/
structure GridPos where
  row : ℚ
  col : ℚ
deriving DecidableEq, Repr

/-- Node definition (NodeDef in src/types.ts, layout-relevant fields). -/
structure NodeDef where
  id : String
  position : GridPos
  container : Option String := none
  innerCol : Option ℚ := none
  alignToInnerCol : Option AlignRef := none
  widthCols : Option ℚ := none
  heightRows : Option ℚ := none
  boxHeightFrac : Option ℚ := none
deriving DecidableEq, Repr

/-- Animation state of a container: its own showContainer envelope, lifted by
any lit member node, then by the global floor; always fully drawn. -/
def containerState (events : List FlatEvent) (fps frame : ℚ)
    (nodes : List NodeDef) (cid : String) : ElementAnimState :=
  let A := animEventsOf events
  let gm := groupMap A
  let floor := (computeGlobals events frame).1
  let withMembers := nodes.foldl (fun acc n =>
    if n.container = some cid then
      max acc (nodeState events fps frame n.id).brightness
    else acc) (containerShowRaw A gm fps frame cid)
  let brightness := max withMembers floor
  { brightness := brightness
    drawProgress := 1
    opacity := DIM_CONTAINER + (1 - DIM_CONTAINER) * brightness }

/-! ### Connection identity (getConnectionId in src/types.ts) -/

/-- Side of a container border that a connection attaches to. -/
inductive LRSide where
  | left
  | right
deriving DecidableEq, Repr

/-- Endpoint of a connection: a node id or a container border reference. -/
inductive ConnectionTarget where
  | node (id : String)
  | containerRef (container : String) (edge : LRSide)
deriving DecidableEq, Repr

/-- Compass edge of a node box. -/
inductive Edge where
  | left
  | right
  | top
  | bottom
deriving DecidableEq, Repr

/-- Geometry point. -/
structure Point where
  x : ℚ
  y : ℚ
deriving DecidableEq, Repr

/-- Connection definition (ConnectionDef in src/types.ts, layout-relevant
fields; from is renamed fromT since from is reserved in Lean). -/
structure ConnectionDef where
  id : Option String := none
  fromT : ConnectionTarget
  toT : ConnectionTarget
  fromEdge : Option Edge := none
  toEdge : Option Edge := none
  waypoints : Option (List Point) := none
deriving DecidableEq, Repr

/-- String form of one endpoint for the derived connection id. -/
def targetIdString : ConnectionTarget → String
  | .node s => s
  | .containerRef c e =>
      "container:" ++ c ++ ":" ++ (match e with | .left => "left" | .right => "right")

/-- getConnectionId: explicit id when truthy, else "from->to". -/
def getConnectionId (c : ConnectionDef) : String :=
  match c.id with
  | some s =>
      if s = "" then targetIdString c.fromT ++ "->" ++ targetIdString c.toT
      else s
  | none => targetIdString c.fromT ++ "->" ++ targetIdString c.toT

/-! ### Timeline state (useTimeline hook) -/

/-- Output of the timeline evaluator (step-indicator fields aside). -/
structure TimelineState where
  nodes : List (String × ElementAnimState)
  connections : List (String × ElementAnimState)
  containers : List (String × ElementAnimState)
  totalSteps : ℕ
  globalOpacity : ℚ
  globalFloor : ℚ
deriving DecidableEq, Repr

/-- Container definition (ContainerDef in src/types.ts). -/
structure SpanRange where
  fromRow : ℚ
  toRow : ℚ
  fromCol : ℚ
  toCol : ℚ
deriving DecidableEq, Repr

/-- Container definition: outer-grid span plus a single-row inner grid. -/
structure ContainerDef where
  id : String
  span : SpanRange
  innerGridCols : ℚ
  insetFrac : Option ℚ := none
deriving DecidableEq, Repr

/-- useTimeline: none for an empty timeline or a still composition
(fps ≤ 1), else the per-element animation state maps. -/
def useTimeline (tl : List Phase) (nodes : List NodeDef)
    (connections : List ConnectionDef) (containers : List ContainerDef)
    (frame fps : ℚ) : Option TimelineState :=
  if tl.isEmpty then none
  else if fps ≤ 1 then none
  else
    let events := flattenTimeline tl fps
    let A := animEventsOf events
    some
      { nodes := nodes.map (fun n => (n.id, nodeState events fps frame n.id))
        connections := connections.map (fun c =>
          (getConnectionId c, connState events fps frame (getConnectionId c)))
        containers := containers.map (fun c =>
          (c.id, containerState events fps frame nodes c.id))
        totalSteps := (A.filter (fun e => e.step.isSome)).length
        globalOpacity := (computeGlobals events frame).2
        globalFloor := (computeGlobals events frame).1 }

/-! ### Grid geometry (resolveLayout in useGridLayout.ts) -/

/-- Theme spacing values consumed by the layout (theme.spacing.page and
theme.spacing.element); the rest of the theme is presentation-only. -/
structure Theme where
  spacingPage : ℚ
  spacingElement : ℚ
deriving DecidableEq, Repr

/-- Grid configuration (GridConfig in src/types.ts). -/
structure GridConfig where
  rows : ℚ
  cols : ℚ
  canvas : Option (ℚ × ℚ) := none
  headerFrac : Option ℚ := none
  footerFrac : Option ℚ := none
  stepIndicatorFrac : Option ℚ := none
deriving DecidableEq, Repr

/-- Derived grid geometry: padded canvas, grid band, uniform cell size. -/
structure GridGeom where
  containerW : ℚ
  containerH : ℚ
  gridTop : ℚ
  gridBottom : ℚ
  cellW : ℚ
  cellH : ℚ
deriving DecidableEq, Repr

/-- Canvas/padding/fraction derivation at the top of resolveLayout. -/
def gridGeom (grid : GridConfig) (theme : Theme) : GridGeom :=
  let canvas := grid.canvas.getD (1920, 1080)
  let pad := theme.spacingPage
  let containerW := canvas.1 - pad * 2
  let containerH := canvas.2 - pad * 2
  let gridTop := containerH * (grid.headerFrac.getD (3/50))
  let gridBottom :=
    containerH * (1 - grid.footerFrac.getD (3/100) - grid.stepIndicatorFrac.getD (1/20))
  { containerW := containerW
    containerH := containerH
    gridTop := gridTop
    gridBottom := gridBottom
    cellW := containerW / grid.cols
    cellH := (gridBottom - gridTop) / grid.rows }

/-- Center of an outer grid cell. -/
def outerCellCenter (G : GridGeom) (row col : ℚ) : Point :=
  { x := G.cellW * col + G.cellW / 2
    y := G.gridTop + G.cellH * row + G.cellH / 2 }

/-- Resolved container footprint and inner grid. -/
structure ResolvedContainer where
  defC : ContainerDef
  left : ℚ
  top : ℚ
  width : ℚ
  height : ℚ
  labelHeight : ℚ
  innerLeft : ℚ
  innerTop : ℚ
  innerCellWidth : ℚ
  innerCellHeight : ℚ
deriving DecidableEq, Repr

/-- Resolved node: absolute center and box size. -/
structure ResolvedNode where
  defN : NodeDef
  center : Point
  width : ℚ
  height : ℚ
  isInner : Bool
deriving DecidableEq, Repr

/-- Resolved connection: identity plus the routed polyline. -/
structure ResolvedConnection where
  defC : ConnectionDef
  id : String
  points : List Point
deriving DecidableEq, Repr

/-- Full resolved layout. -/
structure ResolvedLayout where
  nodes : List (String × ResolvedNode)
  containers : List (String × ResolvedContainer)
  connections : List ResolvedConnection
  containerWidth : ℚ
  containerHeight : ℚ
  gridTop : ℚ
  gridBottom : ℚ
  cellWidth : ℚ
  cellHeight : ℚ
deriving DecidableEq, Repr

/-- Fatal configuration reference errors (the thrown Error values). -/
inductive LayoutErr where
  | nodeNotFound (id : String)
  | containerNotFound (id : String)
deriving DecidableEq, Repr

/-- Message of a thrown reference error. -/
def layoutErrMsg : LayoutErr → String
  | .nodeNotFound id => "Node \"" ++ id ++ "\" not found in layout"
  | .containerNotFound id => "Container \"" ++ id ++ "\" not found in layout"

/-- Resolve one container (the containers loop; 0.52 of the first spanned
row's cell height above and below its center, label strip of 24). -/
def resolveContainer (G : GridGeom) (theme : Theme) (c : ContainerDef) :
    ResolvedContainer :=
  let insetFrac := c.insetFrac.getD (3/50)
  let mfPad := theme.spacingElement
  let left := G.cellW * c.span.fromCol + G.cellW * insetFrac
  let right := G.cellW * (c.span.toCol + 1) - G.cellW * insetFrac
  let rowMidY := (outerCellCenter G c.span.fromRow 0).y
  let top := rowMidY - G.cellH * (13/25)
  let bottom := rowMidY + G.cellH * (13/25)
  let innerLeft := left + mfPad
  let innerRight := right - mfPad
  let innerTop := top + mfPad + 24
  let innerBottom := bottom - mfPad
  { defC := c
    left := left
    top := top
    width := right - left
    height := bottom - top
    labelHeight := 24
    innerLeft := innerLeft
    innerTop := innerTop
    innerCellWidth := (innerRight - innerLeft) / c.innerGridCols
    innerCellHeight := innerBottom - innerTop }

/-- All containers resolved, keyed by id. -/
def resolveContainers (G : GridGeom) (theme : Theme)
    (cs : List ContainerDef) : List (String × ResolvedContainer) :=
  cs.map (fun c => (c.id, resolveContainer G theme c))

/-- JS record lookup: later writes win, so search the reversed list. -/
def cLookup (rcs : List (String × ResolvedContainer)) (id : String) :
    Option ResolvedContainer :=
  (rcs.reverse.find? (fun p => decide (p.1 = id))).map (fun p => p.2)

/-- Center of an inner cell of a resolved container. -/
def innerCellCenterPt (c : ResolvedContainer) (col : ℚ) : Point :=
  { x := c.innerLeft + c.innerCellWidth * col + c.innerCellWidth / 2
    y := c.innerTop + c.innerCellHeight / 2 }

/-- Non-container placement of a node: alignment to an inner column when
present, else the (possibly multi-cell) outer grid span. -/
def resolveNodeOuterOrAlign (G : GridGeom)
    (rcs : List (String × ResolvedContainer)) (n : NodeDef) :
    Except LayoutErr ResolvedNode :=
  let isInner := n.container.isSome
  match n.alignToInnerCol with
  | some a =>
      match cLookup rcs a.containerId with
      | none => .error (.containerNotFound a.containerId)
      | some c =>
          .ok { defN := n
                center := { x := (innerCellCenterPt c a.innerCol).x
                            y := (outerCellCenter G n.position.row n.position.col).y }
                width := G.cellW * (31/50)
                height := G.cellH * (n.boxHeightFrac.getD (8/25))
                isInner := isInner }
  | none =>
      let wCols := n.widthCols.getD 1
      let hRows := n.heightRows.getD 1
      let sc := outerCellCenter G n.position.row n.position.col
      let defaultHFrac :=
        if 1 < hRows then hRows * (18/25)
        else if 1 < wCols then 13/25
        else 8/25
      .ok { defN := n
            center := { x := sc.x + G.cellW * (wCols - 1) / 2
                        y := sc.y + G.cellH * (hRows - 1) / 2 }
            width := G.cellW * (if 1 < wCols then wCols * (23/25) else 31/50)
            height := G.cellH * (n.boxHeightFrac.getD defaultHFrac)
            isInner := isInner }

/-- Resolve one node. The inner-container branch requires a truthy container
id and an innerCol; otherwise placement falls through to alignment/outer. -/
def resolveNode (G : GridGeom) (rcs : List (String × ResolvedContainer))
    (n : NodeDef) : Except LayoutErr ResolvedNode :=
  match n.container, n.innerCol with
  | some cid, some ic =>
      if cid = "" then resolveNodeOuterOrAlign G rcs n
      else
        match cLookup rcs cid with
        | none => .error (.containerNotFound cid)
        | some c =>
            .ok { defN := n
                  center := innerCellCenterPt c ic
                  width := c.innerCellWidth * (29/50)
                  height := c.innerCellHeight * (11/20)
                  isInner := true }
  | _, _ => resolveNodeOuterOrAlign G rcs n

/-- Resolve the node list, failing fast on the first reference error. -/
def resolveNodes (G : GridGeom) (rcs : List (String × ResolvedContainer)) :
    List NodeDef → Except LayoutErr (List (String × ResolvedNode))
  | [] => .ok []
  | n :: rest =>
      match resolveNode G rcs n with
      | .error e => .error e
      | .ok r =>
          match resolveNodes G rcs rest with
          | .error e => .error e
          | .ok rs => .ok ((n.id, r) :: rs)

/-- JS record lookup for resolved nodes (later writes win). -/
def nLookup (rns : List (String × ResolvedNode)) (id : String) :
    Option ResolvedNode :=
  (rns.reverse.find? (fun p => decide (p.1 = id))).map (fun p => p.2)

/-- Edge anchor of a resolved node box. -/
def nodeEdgePt (n : ResolvedNode) (e : Edge) : Point :=
  match e with
  | .right => { x := n.center.x + n.width / 2, y := n.center.y }
  | .left => { x := n.center.x - n.width / 2, y := n.center.y }
  | .top => { x := n.center.x, y := n.center.y - n.height / 2 }
  | .bottom => { x := n.center.x, y := n.center.y + n.height / 2 }

/-- Edge anchor of a node, failing when the id is unknown. -/
def nodeEdge (rns : List (String × ResolvedNode)) (id : String) (e : Edge) :
    Except LayoutErr Point :=
  match nLookup rns id with
  | none => .error (.nodeNotFound id)
  | some n => .ok (nodeEdgePt n e)

/-- Left or right border point of a resolved container at a given y. -/
def containerEdgePt (c : ResolvedContainer) (e : LRSide) (y : ℚ) : Point :=
  { x := match e with | .left => c.left | .right => c.left + c.width, y := y }

/-- Container border anchor, failing when the id is unknown. -/
def containerEdge (rcs : List (String × ResolvedContainer)) (id : String)
    (e : LRSide) (y : ℚ) : Except LayoutErr Point :=
  match cLookup rcs id with
  | none => .error (.containerNotFound id)
  | some c => .ok (containerEdgePt c e y)

/-- inferEdge: dominant axis of the center delta picks the edge. -/
def inferEdge (fromP toP : Point) : Edge :=
  let dx := toP.x - fromP.x
  let dy := toP.y - fromP.y
  if |dy| < |dx| then (if 0 < dx then .right else .left)
  else (if 0 < dy then .bottom else .top)

/-- getTargetCenter: a node's center, or the referenced container border
point at the container's first-row cell-center y. -/
def getTargetCenter (G : GridGeom) (rns : List (String × ResolvedNode))
    (rcs : List (String × ResolvedContainer)) (t : ConnectionTarget) :
    Except LayoutErr Point :=
  match t with
  | .node id =>
      match nLookup rns id with
      | none => .error (.nodeNotFound id)
      | some n => .ok n.center
  | .containerRef cid e =>
      match cLookup rcs cid with
      | none => .error (.containerNotFound cid)
      | some c =>
          containerEdge rcs cid e (outerCellCenter G c.defC.span.fromRow 0).y

/-- autoRoute: straight line on a shared axis (within 1 unit), one vertical
jog at the horizontal midpoint for left/right ↔ left/right, straight line for
top/bottom ↔ top/bottom, and a horizontal-midpoint jog otherwise. -/
def autoRoute (f : Point) (fe : Edge) (t : Point) (te : Edge) : List Point :=
  if |f.y - t.y| < 1 then [f, t]
  else if |f.x - t.x| < 1 then [f, t]
  else if (fe = .right ∨ fe = .left) ∧ (te = .right ∨ te = .left) then
    [f, { x := (f.x + t.x) / 2, y := f.y },
     { x := (f.x + t.x) / 2, y := t.y }, t]
  else if (fe = .top ∨ fe = .bottom) ∧ (te = .top ∨ te = .bottom) then [f, t]
  else
    [f, { x := f.x, y := (f.y + t.y) / 2 },
     { x := t.x, y := (f.y + t.y) / 2 }, t]

/-- Edge used for the from endpoint: explicit override, else inference for
node endpoints, else the left/right side declared in the container ref. -/
def chooseFromEdge (cdef : ConnectionDef) (fromCenter toCenter : Point) :
    Edge :=
  match cdef.fromEdge with
  | some e => e
  | none =>
      match cdef.fromT with
      | .node _ => inferEdge fromCenter toCenter
      | .containerRef _ e => match e with | .left => .left | .right => .right

/-- Edge used for the to endpoint (inference runs toward the from center). -/
def chooseToEdge (cdef : ConnectionDef) (fromCenter toCenter : Point) :
    Edge :=
  match cdef.toEdge with
  | some e => e
  | none =>
      match cdef.toT with
      | .node _ => inferEdge toCenter fromCenter
      | .containerRef _ e => match e with | .left => .left | .right => .right

/-- Anchor point of one endpoint once its edge is chosen. -/
def endpointAnchor (rns : List (String × ResolvedNode))
    (rcs : List (String × ResolvedContainer)) (t : ConnectionTarget)
    (e : Edge) (centerY : ℚ) : Except LayoutErr Point :=
  match t with
  | .node id => nodeEdge rns id e
  | .containerRef cid side => containerEdge rcs cid side centerY

/-- Resolve one connection (the connections loop). -/
def resolveConnection (G : GridGeom) (rns : List (String × ResolvedNode))
    (rcs : List (String × ResolvedContainer)) (cdef : ConnectionDef) :
    Except LayoutErr ResolvedConnection := do
  let fromCenter ← getTargetCenter G rns rcs cdef.fromT
  let toCenter ← getTargetCenter G rns rcs cdef.toT
  let fe := chooseFromEdge cdef fromCenter toCenter
  let te := chooseToEdge cdef fromCenter toCenter
  let fromPoint ← endpointAnchor rns rcs cdef.fromT fe fromCenter.y
  let toPoint ← endpointAnchor rns rcs cdef.toT te toCenter.y
  let points :=
    match cdef.waypoints with
    | some ws => fromPoint :: ws ++ [toPoint]
    | none => autoRoute fromPoint fe toPoint te
  .ok { defC := cdef, id := getConnectionId cdef, points := points }

/-- Resolve the connection list, failing fast on the first reference error. -/
def resolveConnections (G : GridGeom) (rns : List (String × ResolvedNode))
    (rcs : List (String × ResolvedContainer)) :
    List ConnectionDef → Except LayoutErr (List ResolvedConnection)
  | [] => .ok []
  | c :: rest =>
      match resolveConnection G rns rcs c with
      | .error e => .error e
      | .ok r =>
          match resolveConnections G rns rcs rest with
          | .error e => .error e
          | .ok rs => .ok (r :: rs)

/-- resolveLayout: containers, then nodes, then connections; any unknown
reference aborts the whole resolution. -/
def resolveLayout (grid : GridConfig) (nodes : List NodeDef)
    (containers : List ContainerDef) (connections : List ConnectionDef)
    (theme : Theme) : Except LayoutErr ResolvedLayout := do
  let G := gridGeom grid theme
  let rcs := resolveContainers G theme containers
  let rns ← resolveNodes G rcs nodes
  let rconns ← resolveConnections G rns rcs connections
  .ok { nodes := rns
        containers := rcs
        connections := rconns
        containerWidth := G.containerW
        containerHeight := G.containerH
        gridTop := G.gridTop
        gridBottom := G.gridBottom
        cellWidth := G.cellW
        cellHeight := G.cellH }

/-! ### Auxiliary predicates and concrete data used by the theorems -/

mutual

/-- All durations appearing in a step are nonnegative. -/
def stepDurOk : AnimationStep → Bool
  | .hold d => decide (0 ≤ d)
  | .parallel ss _ => stepsDurOk ss
  | .fillBox _ d _ _ => match d with | none => true | some q => decide (0 ≤ q)
  | .dimBox _ d _ _ => match d with | none => true | some q => decide (0 ≤ q)
  | .drawLine _ d _ _ => match d with | none => true | some q => decide (0 ≤ q)
  | .showContainer _ d _ _ =>
      match d with | none => true | some q => decide (0 ≤ q)

/-- All durations appearing in a step list are nonnegative. -/
def stepsDurOk : List AnimationStep → Bool
  | [] => true
  | s :: rest => stepDurOk s && stepsDurOk rest

end

/-- The group field of a step (none for hold). -/
def stepGroupOf : AnimationStep → Option String
  | .fillBox _ _ _ g => g
  | .dimBox _ _ _ g => g
  | .drawLine _ _ _ g => g
  | .showContainer _ _ _ g => g
  | .hold _ => none
  | .parallel _ g => g

/-- Whether a step is a leaf animation action (not hold, not parallel). -/
def isLeafAction : AnimationStep → Bool
  | .fillBox .. => true
  | .dimBox .. => true
  | .drawLine .. => true
  | .showContainer .. => true
  | .hold _ => false
  | .parallel _ _ => false

/-- First flattened hold event of the C6 witness sequence (frames 0..10). -/
def seqHoldEvt1 : FlatEvent :=
  { action := .hold, source := .step, startFrame := 0, durationFrames := 10 }

/-- Second flattened hold event of the C6 witness sequence (frames 10..20). -/
def seqHoldEvt2 : FlatEvent :=
  { action := .hold, source := .step, startFrame := 10, durationFrames := 10 }

/-- Children of the concrete parallel step used by the C6 witness. -/
def c6Children : List AnimationStep :=
  [AnimationStep.fillBox "a" (some 1) none none,
   AnimationStep.drawLine "x" (some 2) none (some "h")]

/-- Lookahead triggers contributed to group g by the given indices, in pass
order (none marks a member whose lookahead falls past the end of the list). -/
def triggerContribs (A : List FlatEvent) (g : String) (idxs : List ℕ) :
    List (Option ℚ) :=
  idxs.filterMap (fun i =>
    match A[i]? with
    | none => none
    | some e =>
        if e.group = some g then some (computeFadeOutStart A i e) else none)

/-- All lookahead triggers of group g over the whole animation list. -/
def groupTriggers (A : List FlatEvent) (g : String) : List (Option ℚ) :=
  triggerContribs A g (List.range A.length)

/-- One-contribution update of a group's stored trigger, mirroring groupStep:
a missing lookahead pins the trigger to Infinity (inner none), otherwise
Math.max seeded with the stored value (or 0 when absent). -/
def combineTrig (cur : Option (Option ℚ)) (c : Option ℚ) :
    Option (Option ℚ) :=
  match c with
  | none => some none
  | some f =>
      match cur with
      | some none => some none
      | some (some prev) => some (some (max prev f))
      | none => some (some (max 0 f))

/-- The finite triggers of a group (drops the Infinity markers). -/
def finTriggers (A : List FlatEvent) (g : String) : List ℚ :=
  (groupTriggers A g).filterMap id

/-- Whether a connection endpoint references an existing node/container id. -/
def targetRefOk (nodes : List NodeDef) (containers : List ContainerDef) :
    ConnectionTarget → Prop
  | .node id => id ∈ nodes.map (fun n => n.id)
  | .containerRef cid _ => cid ∈ containers.map (fun c => c.id)

/-- Both endpoints of a connection reference existing ids. -/
def connRefsOk (nodes : List NodeDef) (containers : List ContainerDef)
    (c : ConnectionDef) : Prop :=
  targetRefOk nodes containers c.fromT ∧ targetRefOk nodes containers c.toT

/-- A node's alignment reference (when present) names an existing container. -/
def alignRefOk (containers : List ContainerDef) (n : NodeDef) : Prop :=
  ∀ a, n.alignToInnerCol = some a →
    a.containerId ∈ containers.map (fun c => c.id)

/-- Concrete timeline refuting C1: a dimBox on node A followed by a reveal
bookend. -/
def c1Timeline : List Phase :=
  [Phase.sequence [AnimationStep.dimBox "A" (some 1) none none],
   Phase.reveal 1]

/-- The single node targeted by the dimBox of c1Timeline. -/
def c1Nodes : List NodeDef := [{ id := "A", position := ⟨0, 0⟩ }]

/-- A leading phase-sourced hold event (30 frames), for floor witnesses. -/
def holdEvt : FlatEvent :=
  { action := .hold, source := .phase, startFrame := 0, durationFrames := 30 }

/-- A single ungrouped fillBox event, for envelope/settlement witnesses. -/
def fillEvt : FlatEvent :=
  { action := .fillBox, source := .step, target := some "n",
    startFrame := 0, durationFrames := 24 }

/-- A dim phase event (frames 10 to 40), for the C4 witness. -/
def dimEvt : FlatEvent :=
  { action := .dim, source := .phase, startFrame := 10, durationFrames := 30 }

/-- A step event following dimEvt (frames 40 to 64), for the C4 witness. -/
def postDimEvt : FlatEvent :=
  { action := .fillBox, source := .step, target := some "n",
    startFrame := 40, durationFrames := 24 }

/-- Grouped events for the C3/C10 witnesses: two members of group g plus
enough later events that only the second member has a lookahead target. -/
def grpEvtA : FlatEvent :=
  { action := .fillBox, source := .step, target := some "a",
    startFrame := 0, durationFrames := 10, group := some "g" }

/-- Second grouped member (a drawLine, lookahead 2). -/
def grpEvtB : FlatEvent :=
  { action := .drawLine, source := .step, target := some "x",
    startFrame := 10, durationFrames := 10, group := some "g" }

/-- Ungrouped filler events completing the lookahead targets. -/
def fillerEvt (k : ℚ) : FlatEvent :=
  { action := .fillBox, source := .step, target := some "f",
    startFrame := 10 + 10 * k, durationFrames := 10 }

/-- Animation list where both group members have finite lookaheads. -/
def c3Events : List FlatEvent :=
  [grpEvtA, grpEvtB, fillerEvt 1, fillerEvt 2, fillerEvt 3, fillerEvt 4]

/-- A late grouped member whose lookahead index is past the end of the
animation list. -/
def grpLate : FlatEvent :=
  { action := .fillBox, source := .step, target := some "z",
    startFrame := 30, durationFrames := 10, group := some "g" }

/-- Animation list where one group member (grpLate) has no lookahead target
while another (grpEvtB) has a finite one. -/
def c10Events : List FlatEvent :=
  [grpEvtA, grpEvtB, fillerEvt 1, grpLate]

/-- Grid for the C7 counterexample: one row, two columns. -/
def c7Grid : GridConfig := { rows := 1, cols := 2 }

/-- Theme for the C7/C8 configurations. -/
def c7Theme : Theme := { spacingPage := 60, spacingElement := 16 }

/-- One outer node in the left column. -/
def c7Nodes : List NodeDef := [{ id := "A", position := ⟨0, 0⟩ }]

/-- One container spanning the right column. -/
def c7Containers : List ContainerDef :=
  [{ id := "C", span := ⟨0, 0, 1, 1⟩, innerGridCols := 1 }]

/-- Connection from the container's right border to the node on its left,
with no explicit edge overrides. -/
def c7Conn : ConnectionDef :=
  { fromT := .containerRef "C" .right, toT := .node "A" }

/-- Connection referencing a node id that does not exist, for the C8
witness. -/
def c8BadConn : ConnectionDef :=
  { fromT := .node "ghost", toT := .node "A" }

/-- Derived grid geometry of the C7 configuration. -/
def c7G : GridGeom := gridGeom c7Grid c7Theme

/-- Resolved containers of the C7 configuration. -/
def c7Rcs : List (String × ResolvedContainer) :=
  resolveContainers c7G c7Theme c7Containers

/-- Resolved nodes of the C7 configuration. -/
def c7Rns : List (String × ResolvedNode) :=
  (resolveNodes c7G c7Rcs c7Nodes).toOption.getD []

/-- The resolved form of c7Conn: anchored at the container's declared right
border (x = 1746), not at the border that center-delta inference would give
(left, x = 954). -/
def c7Rc : ResolvedConnection :=
  { defC := c7Conn
    id := "container:C:right->A"
    points := [{ x := 1746, y := 2352/5 }, { x := 729, y := 2352/5 }] }

/-! ### Basic bounds lemmas -/

lemma interpolate2_bounds01 (x a b : ℚ) :
    0 ≤ interpolate2 x a b 0 1 ∧ interpolate2 x a b 0 1 ≤ 1 := by
  unfold interpolate2
  split_ifs with h1 h2
  · norm_num
  · norm_num
  · push_neg at h1 h2
    have hab : 0 < b - a := by linarith
    have hr0 : 0 ≤ (x - a) / (b - a) := div_nonneg (by linarith) hab.le
    have hr1 : (x - a) / (b - a) ≤ 1 := by
      rw [div_le_one hab]; linarith
    have hv : (0 : ℚ) + (1 - 0) * ((x - a) / (b - a)) = (x - a) / (b - a) := by
      ring
    rw [hv]
    exact ⟨hr0, hr1⟩

lemma interpolate2_bounds10 (x a b : ℚ) :
    0 ≤ interpolate2 x a b 1 0 ∧ interpolate2 x a b 1 0 ≤ 1 := by
  unfold interpolate2
  split_ifs with h1 h2
  · norm_num
  · norm_num
  · push_neg at h1 h2
    have hab : 0 < b - a := by linarith
    have hr0 : 0 ≤ (x - a) / (b - a) := div_nonneg (by linarith) hab.le
    have hr1 : (x - a) / (b - a) ≤ 1 := by
      rw [div_le_one hab]; linarith
    have hv : (1 : ℚ) + (0 - 1) * ((x - a) / (b - a)) = 1 - (x - a) / (b - a) := by
      ring
    rw [hv]
    constructor <;> linarith

lemma interpolate4_bounds (x a b c d : ℚ) :
    0 ≤ interpolate4 x a b c d ∧ interpolate4 x a b c d ≤ 1 := by
  unfold interpolate4
  split_ifs with h1 h2 h3 h4
  · norm_num
  · push_neg at h1
    have hab : 0 < b - a := by linarith
    have hr0 : 0 ≤ (x - a) / (b - a) := div_nonneg (by linarith) hab.le
    have hr1 : (x - a) / (b - a) ≤ 1 := by
      rw [div_le_one hab]; linarith
    exact ⟨hr0, hr1⟩
  · norm_num
  · push_neg at h3
    have hcd : 0 < d - c := by linarith
    have hr0 : 0 ≤ (x - c) / (d - c) := div_nonneg (by linarith) hcd.le
    have hr1 : (x - c) / (d - c) ≤ 1 := by
      rw [div_le_one hcd]; linarith
    constructor <;> linarith
  · norm_num

lemma interpolate2_eq_one (x a b : ℚ) (hax : ¬ x ≤ a) (hbx : b ≤ x) :
    interpolate2 x a b 0 1 = 1 := by
  unfold interpolate2
  rw [if_neg hax, if_pos hbx]

lemma jround_nonneg {q : ℚ} (h : 0 ≤ q) : 0 ≤ jround q := by
  unfold jround
  have : (0 : ℤ) ≤ ⌊q + 1/2⌋ := by
    rw [Int.le_floor]
    push_cast
    linarith
  exact_mod_cast this

lemma foldl_inv {α : Type} (P : ℚ → Prop) (f : ℚ → α → ℚ) :
    ∀ (l : List α) (a : ℚ), P a → (∀ q x, P q → P (f q x)) → P (l.foldl f a)
  | [], _, ha, _ => ha
  | x :: l, a, ha, hf => foldl_inv P f l (f a x) (hf a x ha) hf

lemma eventEnvelope_bounds (A : List FlatEvent) (gm : GroupMap)
    (fps frame : ℚ) (i : ℕ) (e : FlatEvent) :
    0 ≤ eventEnvelope A gm fps frame i e ∧
      eventEnvelope A gm fps frame i e ≤ 1 := by
  rw [eventEnvelope]
  cases fadeOutStartUsed A gm i e with
  | none => exact interpolate2_bounds01 _ _ _
  | some fos => exact interpolate4_bounds _ _ _ _ _

lemma eventDrawProgress_bounds (frame : ℚ) (e : FlatEvent) :
    0 ≤ eventDrawProgress frame e ∧ eventDrawProgress frame e ≤ 1 :=
  interpolate2_bounds01 _ _ _

lemma rawMaxFold_nonneg (A : List FlatEvent) (keep : FlatEvent → Bool)
    (v : ℕ → FlatEvent → ℚ) : 0 ≤ rawMaxFold A keep v := by
  unfold rawMaxFold
  apply foldl_inv (P := fun q => 0 ≤ q)
  · exact le_refl 0
  · intro q i hq
    cases A[i]? with
    | none => exact hq
    | some e =>
        by_cases hk : keep e = true
        · simpa [hk] using le_trans hq (le_max_left _ _)
        · simpa [hk] using hq

lemma rawMaxFold_le_one (A : List FlatEvent) (keep : FlatEvent → Bool)
    (v : ℕ → FlatEvent → ℚ) (hv : ∀ i e, v i e ≤ 1) :
    rawMaxFold A keep v ≤ 1 := by
  unfold rawMaxFold
  apply foldl_inv (P := fun q => q ≤ 1)
  · norm_num
  · intro q i hq
    cases A[i]? with
    | none => exact hq
    | some e =>
        by_cases hk : keep e = true
        · simpa [hk] using max_le hq (hv i e)
        · simpa [hk] using hq

lemma dimPhaseGlobals_fst (events : List FlatEvent) (frame : ℚ)
    (de : FlatEvent) :
    (dimPhaseGlobals events frame de).1
      = if de.startFrame + de.durationFrames ≤ frame then 0 else 1 := by
  simp only [dimPhaseGlobals]
  cases hfp : events.find? (fun e =>
      decide (de.startFrame + de.durationFrames ≤ e.startFrame ∧
        e.action ≠ EvtAction.dim)) with
  | none =>
      dsimp only
      split_ifs <;> rfl
  | some fp =>
      dsimp only
      split_ifs <;> rfl

lemma computeGlobalsBase_fst (events : List FlatEvent) (frame : ℚ) :
    (computeGlobalsBase events frame).1 = 0 ∨
      (computeGlobalsBase events frame).1 = 1 := by
  unfold computeGlobalsBase
  cases hde : events.find? (fun e => decide (e.action = EvtAction.dim)) with
  | none =>
      dsimp only
      split_ifs <;> simp
  | some de =>
      dsimp only
      rw [dimPhaseGlobals_fst]
      split_ifs <;> simp

lemma globalFloor_bounds (events : List FlatEvent) (frame : ℚ) :
    0 ≤ (computeGlobals events frame).1 ∧
      (computeGlobals events frame).1 ≤ 1 := by
  have hbase : 0 ≤ (computeGlobalsBase events frame).1 ∧
      (computeGlobalsBase events frame).1 ≤ 1 := by
    rcases computeGlobalsBase_fst events frame with h | h <;> rw [h] <;>
      norm_num
  simp only [computeGlobals]
  cases hre : events.find? (fun e => decide (e.action = EvtAction.reveal)) with
  | none => exact hbase
  | some re =>
      dsimp only
      split_ifs
      · exact ⟨by norm_num, by norm_num⟩
      · exact ⟨le_trans hbase.1 (le_max_left _ _),
          max_le hbase.2 (interpolate2_bounds01 _ _ _).2⟩
      · exact hbase

lemma nodeBrightRaw_bounds (A : List FlatEvent) (gm : GroupMap)
    (fps frame : ℚ) (nid : String) :
    0 ≤ nodeBrightRaw A gm fps frame nid ∧
      nodeBrightRaw A gm fps frame nid ≤ 1 :=
  ⟨rawMaxFold_nonneg _ _ _,
   rawMaxFold_le_one _ _ _ (fun i e => (eventEnvelope_bounds A gm fps frame i e).2)⟩

lemma nodeDrawRaw_bounds (A : List FlatEvent) (frame : ℚ) (nid : String) :
    0 ≤ nodeDrawRaw A frame nid ∧ nodeDrawRaw A frame nid ≤ 1 :=
  ⟨rawMaxFold_nonneg _ _ _,
   rawMaxFold_le_one _ _ _ (fun _ e => (eventDrawProgress_bounds frame e).2)⟩

lemma nodeDimAmount_bounds (A : List FlatEvent) (frame : ℚ) (nid : String) :
    0 ≤ nodeDimAmount A frame nid ∧ nodeDimAmount A frame nid ≤ 1 :=
  ⟨rawMaxFold_nonneg _ _ _,
   rawMaxFold_le_one _ _ _ (fun _ e => (eventDrawProgress_bounds frame e).2)⟩

lemma connBrightRaw_bounds (A : List FlatEvent) (gm : GroupMap)
    (fps frame : ℚ) (cid : String) :
    0 ≤ connBrightRaw A gm fps frame cid ∧
      connBrightRaw A gm fps frame cid ≤ 1 :=
  ⟨rawMaxFold_nonneg _ _ _,
   rawMaxFold_le_one _ _ _ (fun i e => (eventEnvelope_bounds A gm fps frame i e).2)⟩

lemma connDrawRaw_bounds (A : List FlatEvent) (frame : ℚ) (cid : String) :
    0 ≤ connDrawRaw A frame cid ∧ connDrawRaw A frame cid ≤ 1 :=
  ⟨rawMaxFold_nonneg _ _ _,
   rawMaxFold_le_one _ _ _ (fun _ e => (eventDrawProgress_bounds frame e).2)⟩

lemma containerShowRaw_bounds (A : List FlatEvent) (gm : GroupMap)
    (fps frame : ℚ) (cid : String) :
    0 ≤ containerShowRaw A gm fps frame cid ∧
      containerShowRaw A gm fps frame cid ≤ 1 :=
  ⟨rawMaxFold_nonneg _ _ _,
   rawMaxFold_le_one _ _ _ (fun i e => (eventEnvelope_bounds A gm fps frame i e).2)⟩

lemma nodeState_brightness_bounds (events : List FlatEvent) (fps frame : ℚ)
    (nid : String) :
    0 ≤ (nodeState events fps frame nid).brightness ∧
      (nodeState events fps frame nid).brightness ≤ 1 := by
  simp only [nodeState]
  constructor
  · exact le_max_right _ _
  · apply max_le _ (by norm_num)
    have h1 := (nodeBrightRaw_bounds (animEventsOf events)
      (groupMap (animEventsOf events)) fps frame nid).2
    have h2 := (globalFloor_bounds events frame).2
    have h3 := (nodeDimAmount_bounds (animEventsOf events) frame nid).1
    have := max_le h1 h2
    linarith

lemma connState_brightness_bounds (events : List FlatEvent) (fps frame : ℚ)
    (cid : String) :
    0 ≤ (connState events fps frame cid).brightness ∧
      (connState events fps frame cid).brightness ≤ 1 := by
  simp only [connState]
  have h1 := (connBrightRaw_bounds (animEventsOf events)
    (groupMap (animEventsOf events)) fps frame cid).2
  have h2 := (globalFloor_bounds events frame).2
  have h3 := (interpolate2_bounds01 frame
    (flowEndOf events fps - jround (2/5 * fps)) (flowEndOf events fps)).2
  constructor
  · exact le_trans (connBrightRaw_bounds (animEventsOf events)
      (groupMap (animEventsOf events)) fps frame cid).1
      (le_trans (le_max_left _ _) (le_max_left _ _))
  · exact max_le (max_le h1 h3) h2

lemma containerState_brightness_bounds (events : List FlatEvent)
    (fps frame : ℚ) (nodes : List NodeDef) (cid : String) :
    0 ≤ (containerState events fps frame nodes cid).brightness ∧
      (containerState events fps frame nodes cid).brightness ≤ 1 := by
  simp only [containerState]
  have hmem : nodes.foldl (fun acc n =>
      if n.container = some cid then
        max acc (nodeState events fps frame n.id).brightness
      else acc) (containerShowRaw (animEventsOf events)
        (groupMap (animEventsOf events)) fps frame cid) ≤ 1 := by
    apply foldl_inv (P := fun q => q ≤ 1)
    · exact (containerShowRaw_bounds _ _ _ _ _).2
    · intro q n hq
      split_ifs
      · exact max_le hq (nodeState_brightness_bounds events fps frame n.id).2
      · exact hq
  constructor
  · exact le_trans (globalFloor_bounds events frame).1 (le_max_right _ _)
  · exact max_le hmem (globalFloor_bounds events frame).2

/-! ### Claim C9 -/

/-- C9: every returned element state derives opacity as the affine
combination dimFloor + (1 - dimFloor) * brightness with the per-kind constant
dim floor (0.3 for nodes, 0.15 for connections, 0.3 for containers);
brightness always lies in [0, 1], so opacity lies in [dimFloor, 1]. -/
theorem opacity_derivation (events : List FlatEvent) (fps frame : ℚ) :
    (∀ nid : String,
      (nodeState events fps frame nid).opacity
        = 3/10 + (1 - 3/10) * (nodeState events fps frame nid).brightness ∧
      0 ≤ (nodeState events fps frame nid).brightness ∧
      (nodeState events fps frame nid).brightness ≤ 1 ∧
      3/10 ≤ (nodeState events fps frame nid).opacity ∧
      (nodeState events fps frame nid).opacity ≤ 1) ∧
    (∀ cid : String,
      (connState events fps frame cid).opacity
        = 3/20 + (1 - 3/20) * (connState events fps frame cid).brightness ∧
      0 ≤ (connState events fps frame cid).brightness ∧
      (connState events fps frame cid).brightness ≤ 1 ∧
      3/20 ≤ (connState events fps frame cid).opacity ∧
      (connState events fps frame cid).opacity ≤ 1) ∧
    (∀ (nodes : List NodeDef) (cid : String),
      (containerState events fps frame nodes cid).opacity
        = 3/10 +
          (1 - 3/10) * (containerState events fps frame nodes cid).brightness ∧
      0 ≤ (containerState events fps frame nodes cid).brightness ∧
      (containerState events fps frame nodes cid).brightness ≤ 1 ∧
      3/10 ≤ (containerState events fps frame nodes cid).opacity ∧
      (containerState events fps frame nodes cid).opacity ≤ 1) := by
  refine ⟨fun nid => ?_, fun cid => ?_, fun nodes cid => ?_⟩
  · have hb := nodeState_brightness_bounds events fps frame nid
    have hop : (nodeState events fps frame nid).opacity
        = 3/10 + (1 - 3/10) * (nodeState events fps frame nid).brightness := rfl
    refine ⟨hop, hb.1, hb.2, ?_, ?_⟩ <;> rw [hop] <;> linarith [hb.1, hb.2]
  · have hb := connState_brightness_bounds events fps frame cid
    have hop : (connState events fps frame cid).opacity
        = 3/20 + (1 - 3/20) * (connState events fps frame cid).brightness := rfl
    refine ⟨hop, hb.1, hb.2, ?_, ?_⟩ <;> rw [hop] <;> linarith [hb.1, hb.2]
  · have hb := containerState_brightness_bounds events fps frame nodes cid
    have hop : (containerState events fps frame nodes cid).opacity
        = 3/10 +
          (1 - 3/10) * (containerState events fps frame nodes cid).brightness :=
      rfl
    refine ⟨hop, hb.1, hb.2, ?_, ?_⟩ <;> rw [hop] <;> linarith [hb.1, hb.2]

/-! ### Claim C1 -/

/-- C1 counterexample: in a timeline with a dimBox on node A followed by a
reveal phase, at frame 60 (after the completed reveal) the returned global
floor is 1 yet node A's returned brightness is 0 rather than 1 — the dimBox
ramp is subtracted after the floor is applied, refuting floor dominance as
stated. -/
theorem floor_dominance_counterexample :
    (useTimeline c1Timeline c1Nodes [] [] 60 30).map
        (fun st => st.globalFloor) = some 1 ∧
    (useTimeline c1Timeline c1Nodes [] [] 60 30).map (fun st => st.nodes)
      = some [("A", { brightness := 0, drawProgress := 1, opacity := 3/10 })] ∧
    (0 : ℚ) ≠ 1 := by
  refine ⟨?_, ?_, by norm_num⟩ <;>
  · simp [useTimeline, c1Timeline, c1Nodes, flattenTimeline, flattenPhases,
      flattenSeq, flattenStep, defaultDuration, jsOr, jround, animEventsOf,
      nodeState, rawMaxFold, nodeBrightRaw, nodeDrawRaw, nodeDimAmount,
      eventEnvelope, eventDrawProgress, fadeOutStartUsed, computeFadeOutStart,
      lookaheadOf, groupMap, groupStep, gmEmpty, gmSet, computeGlobals,
      computeGlobalsBase, dimPhaseGlobals, seqStartOf, interpolate2,
      interpolate4, List.find?, List.range_succ, DIM_NODE, totalFramesOf]
    norm_num

/-- C1 (amended): at every instant at which the global floor equals 1, every
element's returned drawProgress equals 1; brightness equals 1 for every
connection and container; a node's brightness equals max (1 - dim) 0 where
dim is its dimBox ramp (subtracted after the floor), hence equals 1 whenever
no dimBox targeting it has advanced. -/
theorem floor_dominance_amended (events : List FlatEvent) (fps frame : ℚ)
    (hfloor : (computeGlobals events frame).1 = 1) :
    (∀ nid : String,
      (nodeState events fps frame nid).drawProgress = 1 ∧
      (nodeState events fps frame nid).brightness
        = max (1 - nodeDimAmount (animEventsOf events) frame nid) 0 ∧
      (nodeDimAmount (animEventsOf events) frame nid = 0 →
        (nodeState events fps frame nid).brightness = 1)) ∧
    (∀ cid : String,
      (connState events fps frame cid).brightness = 1 ∧
      (connState events fps frame cid).drawProgress = 1) ∧
    (∀ (nodes : List NodeDef) (cid : String),
      (containerState events fps frame nodes cid).brightness = 1 ∧
      (containerState events fps frame nodes cid).drawProgress = 1) := by
  refine ⟨fun nid => ?_, fun cid => ?_, fun nodes cid => ?_⟩
  · have h1 := (nodeBrightRaw_bounds (animEventsOf events)
      (groupMap (animEventsOf events)) fps frame nid).2
    have h2 := (nodeDrawRaw_bounds (animEventsOf events) frame nid).2
    have hbr : (nodeState events fps frame nid).brightness
        = max (1 - nodeDimAmount (animEventsOf events) frame nid) 0 := by
      simp only [nodeState]
      rw [hfloor, max_eq_right h1]
    refine ⟨?_, hbr, fun hdim => ?_⟩
    · simp only [nodeState]
      rw [hfloor]
      exact max_eq_right h2
    · rw [hbr, hdim]
      norm_num
  · have h1 := (connBrightRaw_bounds (animEventsOf events)
      (groupMap (animEventsOf events)) fps frame cid).2
    have h2 := (connDrawRaw_bounds (animEventsOf events) frame cid).2
    have h3 := (interpolate2_bounds01 frame
      (flowEndOf events fps - jround (2/5 * fps)) (flowEndOf events fps)).2
    constructor
    · simp only [connState]
      rw [hfloor]
      exact max_eq_right (max_le h1 h3)
    · simp only [connState]
      rw [hfloor, max_eq_right h2]
      exact max_eq_left h3
  · constructor
    · simp only [containerState]
      rw [hfloor]
      refine max_eq_right ?_
      apply foldl_inv (P := fun q => q ≤ 1)
      · exact (containerShowRaw_bounds _ _ _ _ _).2
      · intro q n hq
        split_ifs
        · exact max_le hq (nodeState_brightness_bounds events fps frame n.id).2
        · exact hq
    · rfl

/-- Witness for the amended C1: at frame 0 of a timeline starting with a
30-frame phase hold, the floor is 1 and a connection renders at brightness 1. -/
theorem floor_dominance_amended_witness :
    (computeGlobals [holdEvt] 0).1 = 1 ∧
      (connState [holdEvt] 30 0 "c").brightness = 1 :=
  ⟨by simp [computeGlobals, computeGlobalsBase, holdEvt, seqStartOf,
      List.find?]; norm_num,
   ((floor_dominance_amended [holdEvt] 30 0
      (by simp [computeGlobals, computeGlobalsBase, holdEvt, seqStartOf,
        List.find?]; norm_num)).2.1 "c").1⟩

/-! ### Claim C5 -/

lemma animEventsOf_props {events : List FlatEvent} {e : FlatEvent}
    (h : e ∈ animEventsOf events) :
    e.action ≠ EvtAction.hold ∧ e.action ≠ EvtAction.dim ∧
      e.action ≠ EvtAction.reveal := by
  simp only [animEventsOf, List.mem_filter, decide_eq_true_eq] at h
  exact h.2

lemma flowEndOf_eq_getLast (events : List FlatEvent) (fps : ℚ)
    (hA : animEventsOf events ≠ []) :
    ∃ last, (animEventsOf events).getLast? = some last ∧
      flowEndOf events fps
        = last.startFrame + last.durationFrames + jround (2 * fps) := by
  obtain ⟨a, t, hat⟩ := List.exists_cons_of_ne_nil
    (fun h => hA (List.reverse_eq_nil_iff.mp h))
  have hmem : a ∈ animEventsOf events := by
    have : a ∈ (animEventsOf events).reverse := by
      rw [hat]; exact List.mem_cons_self a t
    simpa using this
  have hfind : (animEventsOf events).reverse.find?
      (fun e => decide (e.action ≠ EvtAction.hold)) = some a := by
    rw [hat]
    exact List.find?_cons_of_pos _
      (decide_eq_true (animEventsOf_props hmem).1)
  refine ⟨a, ?_, ?_⟩
  · rw [← List.head?_reverse, hat]
    rfl
  · simp only [flowEndOf, hfind]

/-- C5: with at least one animation event, flowEnd is the last animation
event's end plus the 2-second grace interval, and at every instant at or
after flowEnd every connection — drawn or not — has returned brightness 1 and
drawProgress 1 (requires a nonzero fade-in frame count, since the final ramp
would otherwise be a degenerate interpolation range). -/
theorem connection_settlement (events : List FlatEvent) (fps frame : ℚ)
    (cid : String) (hA : animEventsOf events ≠ [])
    (hfif : 1 ≤ jround (2/5 * fps))
    (hframe : flowEndOf events fps ≤ frame) :
    (∃ last, (animEventsOf events).getLast? = some last ∧
      flowEndOf events fps
        = last.startFrame + last.durationFrames + jround (2 * fps)) ∧
    (connState events fps frame cid).brightness = 1 ∧
    (connState events fps frame cid).drawProgress = 1 := by
  have hramp : interpolate2 frame
      (flowEndOf events fps - jround (2/5 * fps)) (flowEndOf events fps) 0 1
      = 1 :=
    interpolate2_eq_one _ _ _ (not_le.mpr (by linarith)) hframe
  have h1 := (connBrightRaw_bounds (animEventsOf events)
    (groupMap (animEventsOf events)) fps frame cid).2
  have h2 := (connDrawRaw_bounds (animEventsOf events) frame cid).2
  have hfl := (globalFloor_bounds events frame).2
  refine ⟨flowEndOf_eq_getLast events fps hA, ?_, ?_⟩
  · simp only [connState]
    rw [hramp, max_eq_right h1]
    exact max_eq_left hfl
  · simp only [connState]
    rw [hramp]
    exact max_eq_right (max_le h2 hfl)

/-- Witness for C5: one 24-frame fillBox at 30 fps; flowEnd is 84 and at
frame 100 an arbitrary connection has settled to brightness 1. -/
theorem connection_settlement_witness :
    (connState [fillEvt] 30 100 "c").brightness = 1 :=
  (connection_settlement [fillEvt] 30 100 "c"
    (by simp [animEventsOf, fillEvt])
    (by norm_num [jround])
    (by simp [flowEndOf, animEventsOf, fillEvt, jround, List.find?,
        totalFramesOf]; norm_num)).2.1

/-! ### Claim C4 -/

lemma interpolate2_eval10 (x a b : ℚ) (h1 : a ≤ x) (h2 : x < b) :
    interpolate2 x a b 1 0 = (b - x) / (b - a) := by
  unfold interpolate2
  by_cases hxa : x ≤ a
  · have hxa2 : x = a := le_antisymm hxa h1
    rw [if_pos hxa, hxa2]
    exact (div_self (by linarith : b - a ≠ 0)).symm
  · rw [if_neg hxa, if_neg (not_le.mpr h2)]
    push_neg at hxa
    have hne : b - a ≠ 0 := by linarith
    field_simp

lemma computeGlobals_snd_eq_base (events : List FlatEvent) (frame : ℚ) :
    (computeGlobals events frame).2 = (computeGlobalsBase events frame).2 := by
  simp only [computeGlobals]
  cases hre : events.find? (fun e => decide (e.action = EvtAction.reveal)) with
  | none => rfl
  | some re =>
      dsimp only
      split_ifs <;> rfl

lemma computeGlobals_fst_of_base_one (events : List FlatEvent) (frame : ℚ)
    (h : (computeGlobalsBase events frame).1 = 1) :
    (computeGlobals events frame).1 = 1 := by
  simp only [computeGlobals]
  cases hre : events.find? (fun e => decide (e.action = EvtAction.reveal)) with
  | none => exact h
  | some re =>
      dsimp only
      split_ifs
      · rfl
      · show (computeGlobalsBase events frame).1 ⊔ _ = 1
        rw [h]
        exact max_eq_left (interpolate2_bounds01 _ _ _).2
      · exact h

lemma computeGlobals_fst_of_base_zero (events : List FlatEvent) (frame : ℚ)
    (h : (computeGlobalsBase events frame).1 = 0)
    (hre : ∀ re, events.find? (fun e => decide (e.action = EvtAction.reveal))
      = some re → frame < re.startFrame ∧ 0 ≤ re.durationFrames) :
    (computeGlobals events frame).1 = 0 := by
  simp only [computeGlobals]
  cases hfind : events.find? (fun e => decide (e.action = EvtAction.reveal)) with
  | none => exact h
  | some re =>
      obtain ⟨h1, h2⟩ := hre re hfind
      dsimp only
      rw [if_neg (by intro hc; linarith), if_neg (not_le.mpr h1)]
      exact h

lemma dimPhaseGlobals_snd_before (events : List FlatEvent) (frame : ℚ)
    (de : FlatEvent) (hdur : 0 ≤ de.durationFrames)
    (hf : frame < de.startFrame) :
    (dimPhaseGlobals events frame de).2 = 1 := by
  simp only [dimPhaseGlobals]
  cases hfp : events.find? (fun e =>
      decide (de.startFrame + de.durationFrames ≤ e.startFrame ∧
        e.action ≠ EvtAction.dim)) with
  | none =>
      dsimp only
      split_ifs <;> first | rfl | linarith
  | some fp =>
      dsimp only
      split_ifs <;> first | rfl | linarith

lemma dimPhaseGlobals_snd_during (events : List FlatEvent) (frame : ℚ)
    (de : FlatEvent) (h1 : de.startFrame ≤ frame)
    (h2 : frame < de.startFrame + de.durationFrames) :
    (dimPhaseGlobals events frame de).2
      = (de.startFrame + de.durationFrames - frame) / de.durationFrames := by
  have hval : interpolate2 frame de.startFrame
      (de.startFrame + de.durationFrames) 1 0
      = (de.startFrame + de.durationFrames - frame) / de.durationFrames := by
    rw [interpolate2_eval10 frame de.startFrame
      (de.startFrame + de.durationFrames) h1 h2]
    ring_nf
  simp only [dimPhaseGlobals]
  cases hfp : events.find? (fun e =>
      decide (de.startFrame + de.durationFrames ≤ e.startFrame ∧
        e.action ≠ EvtAction.dim)) with
  | none =>
      dsimp only
      rw [if_neg (not_le.mpr h2), if_pos h1]
      exact hval
  | some fp =>
      have hprop := List.find?_some hfp
      rw [decide_eq_true_eq] at hprop
      dsimp only
      rw [if_neg (not_le.mpr (by linarith [hprop.1])),
        if_neg (not_le.mpr h2), if_pos h1]
      exact hval

lemma dimPhaseGlobals_snd_post (events : List FlatEvent) (frame : ℚ)
    (de fp : FlatEvent)
    (hfp : events.find? (fun e =>
      decide (de.startFrame + de.durationFrames ≤ e.startFrame ∧
        e.action ≠ EvtAction.dim)) = some fp)
    (hfr : fp.startFrame ≤ frame) :
    (dimPhaseGlobals events frame de).2 = 1 := by
  simp only [dimPhaseGlobals]
  rw [hfp]
  dsimp only
  rw [if_pos hfr]

/-- C4: with a dim-phase event present (of nonnegative duration): before the
phase the floor and global opacity are 1; within it the floor stays 1 while
opacity ramps linearly down as (dimEnd - frame) / duration; once the first
post-dim event has started the opacity is 1 again; and from the phase end on
the floor is 0 as long as no reveal phase has started. -/
theorem dim_bookend_behaviour (events : List FlatEvent) (frame : ℚ)
    (de : FlatEvent)
    (hdim : events.find? (fun e => decide (e.action = EvtAction.dim)) = some de)
    (hdur : 0 ≤ de.durationFrames) :
    (frame < de.startFrame →
      (computeGlobals events frame).1 = 1 ∧
        (computeGlobals events frame).2 = 1) ∧
    (de.startFrame ≤ frame → frame < de.startFrame + de.durationFrames →
      (computeGlobals events frame).1 = 1 ∧
      (computeGlobals events frame).2
        = (de.startFrame + de.durationFrames - frame) / de.durationFrames) ∧
    (∀ fp, events.find? (fun e =>
        decide (de.startFrame + de.durationFrames ≤ e.startFrame ∧
          e.action ≠ EvtAction.dim)) = some fp →
      fp.startFrame ≤ frame → (computeGlobals events frame).2 = 1) ∧
    (de.startFrame + de.durationFrames ≤ frame →
      (events.find? (fun e => decide (e.action = EvtAction.reveal)) = none →
        (computeGlobals events frame).1 = 0) ∧
      (∀ re, events.find? (fun e => decide (e.action = EvtAction.reveal))
          = some re →
        frame < re.startFrame → 0 ≤ re.durationFrames →
        (computeGlobals events frame).1 = 0)) := by
  have hbase : computeGlobalsBase events frame = dimPhaseGlobals events frame de := by
    unfold computeGlobalsBase
    rw [hdim]
  refine ⟨fun h1 => ⟨?_, ?_⟩, fun h1 h2 => ⟨?_, ?_⟩, fun fp hfp hfr => ?_,
    fun h1 => ⟨fun hre => ?_, fun re hre hfr hrd => ?_⟩⟩
  · apply computeGlobals_fst_of_base_one
    rw [hbase, dimPhaseGlobals_fst, if_neg (by linarith)]
  · rw [computeGlobals_snd_eq_base, hbase]
    exact dimPhaseGlobals_snd_before events frame de hdur h1
  · apply computeGlobals_fst_of_base_one
    rw [hbase, dimPhaseGlobals_fst, if_neg (not_le.mpr h2)]
  · rw [computeGlobals_snd_eq_base, hbase]
    exact dimPhaseGlobals_snd_during events frame de h1 h2
  · rw [computeGlobals_snd_eq_base, hbase]
    exact dimPhaseGlobals_snd_post events frame de fp hfp hfr
  · apply computeGlobals_fst_of_base_zero
    · rw [hbase, dimPhaseGlobals_fst, if_pos h1]
    · intro re hsome
      rw [hre] at hsome
      cases hsome
  · apply computeGlobals_fst_of_base_zero
    · rw [hbase, dimPhaseGlobals_fst, if_pos h1]
    · intro re2 hsome
      rw [hre] at hsome
      cases hsome
      exact ⟨hfr, hrd⟩

/-- Witness for C4: dim phase over frames 10..40 followed by a step at 40;
at frame 25 the floor is 1 and opacity has ramped to 1/2. -/
theorem dim_bookend_behaviour_witness :
    (computeGlobals [dimEvt, postDimEvt] 25).1 = 1 ∧
      (computeGlobals [dimEvt, postDimEvt] 25).2 = 1/2 := by
  have h := (dim_bookend_behaviour [dimEvt, postDimEvt] 25 dimEvt
    (by simp [List.find?, dimEvt]) (by norm_num [dimEvt])).2.1
    (by norm_num [dimEvt]) (by norm_num [dimEvt])
  exact ⟨h.1, by rw [h.2]; norm_num [dimEvt]⟩

/-! ### Claim C2 -/

/-- C2: an ungrouped animation event at index i uses as fade-out trigger the
end instant of the event N positions later in the animation-only list, where
N = 2 for drawLine and N = 3 otherwise; when that index is past the end of
the list the event has no fade-out: its envelope is the clamped fade-in ramp
and stays 1 from the fade-in end on (for a nonzero duration). -/
theorem fade_out_lookahead (events : List FlatEvent) (fps frame : ℚ) (i : ℕ)
    (e : FlatEvent) (_he : (animEventsOf events)[i]? = some e)
    (hg : e.group = none) :
    (∀ e2, (animEventsOf events)[i +
        (if e.action = EvtAction.drawLine then 2 else 3)]? = some e2 →
      fadeOutStartUsed (animEventsOf events) (groupMap (animEventsOf events))
          i e
        = some (e2.startFrame + e2.durationFrames)) ∧
    ((animEventsOf events)[i +
        (if e.action = EvtAction.drawLine then 2 else 3)]? = none →
      fadeOutStartUsed (animEventsOf events) (groupMap (animEventsOf events))
          i e = none ∧
      eventEnvelope (animEventsOf events) (groupMap (animEventsOf events))
          fps frame i e
        = interpolate2 frame e.startFrame
            (e.startFrame + e.durationFrames) 0 1 ∧
      (0 < e.durationFrames → e.startFrame + e.durationFrames ≤ frame →
        eventEnvelope (animEventsOf events) (groupMap (animEventsOf events))
            fps frame i e = 1)) := by
  have hfos : fadeOutStartUsed (animEventsOf events)
      (groupMap (animEventsOf events)) i e
      = computeFadeOutStart (animEventsOf events) i e := by
    simp only [fadeOutStartUsed, hg]
  constructor
  · intro e2 h2
    rw [hfos]
    simp only [computeFadeOutStart, lookaheadOf]
    rw [h2]
  · intro h2
    have hnone : computeFadeOutStart (animEventsOf events) i e = none := by
      simp only [computeFadeOutStart, lookaheadOf]
      rw [h2]
    have henv : eventEnvelope (animEventsOf events)
        (groupMap (animEventsOf events)) fps frame i e
        = interpolate2 frame e.startFrame
            (e.startFrame + e.durationFrames) 0 1 := by
      simp only [eventEnvelope, hfos, hnone]
    refine ⟨hfos.trans hnone, henv, fun hda hfr => ?_⟩
    rw [henv]
    exact interpolate2_eq_one _ _ _ (by intro hc; linarith) hfr

/-- Witness for C2: a single ungrouped fillBox event (lookahead index 3 past
the end) stays at envelope 1 at frame 100. -/
theorem fade_out_lookahead_witness :
    eventEnvelope (animEventsOf [fillEvt]) (groupMap (animEventsOf [fillEvt]))
      30 100 0 fillEvt = 1 :=
  ((fade_out_lookahead [fillEvt] 30 100 0 fillEvt
      (by simp [animEventsOf, fillEvt]) rfl).2
    (by simp [animEventsOf, fillEvt])).2.2
    (by norm_num [fillEvt]) (by norm_num [fillEvt])

/-! ### Claims C3 and C10: group trigger characterization -/

lemma gmEmpty_apply (g : String) : gmEmpty g = none := rfl

lemma gmSet_self (m : GroupMap) (g : String) (v : Option ℚ) :
    gmSet m g v g = some v := by
  simp [gmSet]

lemma gmSet_other (m : GroupMap) (g g2 : String) (v : Option ℚ)
    (h : g ≠ g2) : gmSet m g2 v g = m g := by
  simp [gmSet, h]

lemma groupStep_apply_self (A : List FlatEvent) (m : GroupMap) (i : ℕ)
    (e : FlatEvent) (g : String) (hge : e.group = some g) (hne : g ≠ "") :
    groupStep A m i e g = combineTrig (m g) (computeFadeOutStart A i e) := by
  simp only [groupStep, hge, if_neg hne]
  cases hcf : computeFadeOutStart A i e with
  | none => simp [combineTrig, gmSet]
  | some f =>
      cases hm : m g with
      | none => simp [combineTrig, gmSet]
      | some t =>
          cases t with
          | none => simp [combineTrig, gmSet]
          | some prev => simp [combineTrig, gmSet]

lemma groupStep_apply_other (A : List FlatEvent) (m : GroupMap) (i : ℕ)
    (e : FlatEvent) (g g2 : String) (hge : e.group = some g2)
    (hne2 : g2 ≠ "") (hgg : g2 ≠ g) :
    groupStep A m i e g = m g := by
  simp only [groupStep, hge, if_neg hne2]
  cases hcf : computeFadeOutStart A i e with
  | none => exact gmSet_other m g g2 none (Ne.symm hgg)
  | some f =>
      cases hm : m g2 with
      | none => exact gmSet_other m g g2 _ (Ne.symm hgg)
      | some t =>
          cases t with
          | none => exact gmSet_other m g g2 _ (Ne.symm hgg)
          | some prev => exact gmSet_other m g g2 _ (Ne.symm hgg)

lemma groupStep_apply_nogroup (A : List FlatEvent) (m : GroupMap) (i : ℕ)
    (e : FlatEvent) (g : String) (hge : e.group = none) :
    groupStep A m i e g = m g := by
  simp only [groupStep, hge]

lemma groupStep_apply_empty (A : List FlatEvent) (m : GroupMap) (i : ℕ)
    (e : FlatEvent) (g : String) (hge : e.group = some "") :
    groupStep A m i e g = m g := by
  simp [groupStep, hge]

lemma groupFold_localize (A : List FlatEvent) (g : String) (hne : g ≠ "") :
    ∀ (idxs : List ℕ) (m : GroupMap),
      (idxs.foldl (fun m2 i =>
        match A[i]? with
        | none => m2
        | some e => groupStep A m2 i e) m) g
        = (triggerContribs A g idxs).foldl combineTrig (m g) := by
  intro idxs
  induction idxs with
  | nil => intro m; rfl
  | cons i rest ih =>
      intro m
      rw [List.foldl_cons]
      cases hAi : A[i]? with
      | none =>
          have hc : triggerContribs A g (i :: rest)
              = triggerContribs A g rest := by
            simp only [triggerContribs, List.filterMap_cons, hAi]
          simp only [hAi, hc]
          exact ih m
      | some e =>
          simp only [hAi]
          cases hge : e.group with
          | none =>
              have hc : triggerContribs A g (i :: rest)
                  = triggerContribs A g rest := by
                simp [triggerContribs, List.filterMap_cons, hAi, hge]
              rw [ih (groupStep A m i e),
                groupStep_apply_nogroup A m i e g hge, hc]
          | some g2 =>
              by_cases hg2 : g2 = ""
              · subst hg2
                have hc : triggerContribs A g (i :: rest)
                    = triggerContribs A g rest := by
                  simp [triggerContribs, List.filterMap_cons, hAi, hge,
                    Ne.symm hne]
                rw [ih (groupStep A m i e),
                  groupStep_apply_empty A m i e g hge, hc]
              · by_cases hgg : g2 = g
                · subst hgg
                  have hc : triggerContribs A g2 (i :: rest)
                      = computeFadeOutStart A i e :: triggerContribs A g2 rest := by
                    simp [triggerContribs, List.filterMap_cons, hAi, hge]
                  rw [ih (groupStep A m i e),
                    groupStep_apply_self A m i e g2 hge hg2, hc,
                    List.foldl_cons]
                · have hc : triggerContribs A g (i :: rest)
                      = triggerContribs A g rest := by
                    simp [triggerContribs, List.filterMap_cons, hAi, hge, hgg]
                  rw [ih (groupStep A m i e),
                    groupStep_apply_other A m i e g g2 hge hg2 hgg, hc]

lemma groupMap_apply (A : List FlatEvent) (g : String) (hne : g ≠ "") :
    groupMap A g = (groupTriggers A g).foldl combineTrig none := by
  unfold groupMap groupTriggers
  exact groupFold_localize A g hne (List.range A.length) gmEmpty

lemma combineTrig_isSome (acc : Option (Option ℚ)) (c : Option ℚ) :
    ∃ v, combineTrig acc c = some v := by
  cases c with
  | none => exact ⟨none, rfl⟩
  | some f =>
      cases acc with
      | none => exact ⟨some (max 0 f), rfl⟩
      | some t =>
          cases t with
          | none => exact ⟨none, rfl⟩
          | some prev => exact ⟨some (max prev f), rfl⟩

lemma foldl_combineTrig_isSome_of_some (cs : List (Option ℚ)) :
    ∀ v : Option ℚ, ∃ w, cs.foldl combineTrig (some v) = some w := by
  induction cs with
  | nil => exact fun v => ⟨v, rfl⟩
  | cons c rest ih =>
      intro v
      rw [List.foldl_cons]
      obtain ⟨w1, hw1⟩ := combineTrig_isSome (some v) c
      rw [hw1]
      exact ih w1

lemma foldl_combineTrig_isSome (cs : List (Option ℚ)) (hcs : cs ≠ []) :
    ∃ w, cs.foldl combineTrig none = some w := by
  cases cs with
  | nil => cases hcs rfl
  | cons c rest =>
      rw [List.foldl_cons]
      obtain ⟨w1, hw1⟩ := combineTrig_isSome none c
      rw [hw1]
      exact foldl_combineTrig_isSome_of_some rest w1

lemma combineTrig_absorb (c : Option ℚ) : combineTrig (some none) c = some none := by
  cases c <;> rfl

lemma foldl_combineTrig_absorb (l : List (Option ℚ)) :
    l.foldl combineTrig (some none) = some none := by
  induction l with
  | nil => rfl
  | cons c rest ih =>
      rw [List.foldl_cons, combineTrig_absorb]
      exact ih

lemma foldl_combineTrig_of_mem_none (cs : List (Option ℚ)) :
    ∀ acc, none ∈ cs → cs.foldl combineTrig acc = some none := by
  induction cs with
  | nil => intro acc h; cases h
  | cons c rest ih =>
      intro acc h
      rw [List.foldl_cons]
      rcases List.mem_cons.mp h with hc | hc
      · have hcn : combineTrig acc c = some none := by
          rw [← hc]
          rfl
        rw [hcn]
        exact foldl_combineTrig_absorb rest
      · exact ih _ hc

lemma foldl_combineTrig_map_some (fs : List ℚ) :
    ∀ p : ℚ, (fs.map some).foldl combineTrig (some (some p))
      = some (some (fs.foldl max p)) := by
  induction fs with
  | nil => intro p; rfl
  | cons f rest ih =>
      intro p
      rw [List.map_cons, List.foldl_cons, List.foldl_cons]
      exact ih (max p f)

lemma foldl_combineTrig_map_some_none (fs : List ℚ) (hfs : fs ≠ []) :
    (fs.map some).foldl combineTrig none = some (some (fs.foldl max 0)) := by
  cases fs with
  | nil => cases hfs rfl
  | cons f rest =>
      rw [List.map_cons, List.foldl_cons]
      have h1 : combineTrig none (some f) = some (some (max 0 f)) := rfl
      rw [h1, List.foldl_cons]
      exact foldl_combineTrig_map_some rest (max 0 f)

lemma le_foldl_max (l : List ℚ) : ∀ a : ℚ, a ≤ l.foldl max a := by
  induction l with
  | nil => exact fun a => le_refl a
  | cons c rest ih =>
      intro a
      rw [List.foldl_cons]
      exact le_trans (le_max_left a c) (ih (max a c))

lemma foldl_max_le_of_mem (l : List ℚ) :
    ∀ (a x : ℚ), x ∈ l → x ≤ l.foldl max a := by
  induction l with
  | nil => intro a x h; cases h
  | cons c rest ih =>
      intro a x h
      rw [List.foldl_cons]
      rcases List.mem_cons.mp h with hc | hc
      · subst hc
        exact le_trans (le_max_right a x) (le_foldl_max rest (max a x))
      · exact ih (max a c) x hc

lemma foldl_max_mem (l : List ℚ) :
    ∀ a : ℚ, l.foldl max a = a ∨ l.foldl max a ∈ l := by
  induction l with
  | nil => exact fun a => Or.inl rfl
  | cons c rest ih =>
      intro a
      rw [List.foldl_cons]
      rcases ih (max a c) with h | h
      · rcases max_choice a c with hm | hm
        · exact Or.inl (h.trans hm)
        · exact Or.inr (by rw [h, hm]; exact List.mem_cons_self c rest)
      · exact Or.inr (List.mem_cons_of_mem c h)

lemma contrib_mem_groupTriggers (A : List FlatEvent) (g : String) (i : ℕ)
    (e : FlatEvent) (hi : A[i]? = some e) (hg : e.group = some g) :
    computeFadeOutStart A i e ∈ groupTriggers A g := by
  have hlen : i < A.length := by
    by_contra hlt
    push_neg at hlt
    rw [List.getElem?_eq_none hlt] at hi
    cases hi
  unfold groupTriggers triggerContribs
  apply List.mem_filterMap.mpr
  refine ⟨i, List.mem_range.mpr hlen, ?_⟩
  simp [hi, hg]

lemma all_some_eq_map_finTriggers (cs : List (Option ℚ))
    (h : ∀ c ∈ cs, c ≠ none) : cs = (cs.filterMap id).map some := by
  induction cs with
  | nil => rfl
  | cons c rest ih =>
      cases c with
      | none => exact absurd rfl (h none (List.mem_cons_self _ _))
      | some x =>
          have htail := ih (fun c2 hc2 => h c2 (List.mem_cons_of_mem _ hc2))
          simp only [List.filterMap_cons, id, List.map_cons]
          exact congrArg (fun l => some x :: l) htail

lemma fadeOutStartUsed_of_gm (A : List FlatEvent) (gm : GroupMap) (i : ℕ)
    (e : FlatEvent) (g : String) (v : Option ℚ) (hg : e.group = some g)
    (hne : g ≠ "") (hv : gm g = some v) :
    fadeOutStartUsed A gm i e = v := by
  simp only [fadeOutStartUsed, hg, if_neg hne, hv]

/-- C3: any two animation events carrying the same (truthy) group tag use the
identical fade-out trigger, and when every member of the group has a finite
lookahead trigger (all nonnegative) the shared value is exactly the maximum
individual trigger over the group, attained by some member. -/
theorem group_synchrony (events : List FlatEvent) (i1 i2 : ℕ)
    (e1 e2 : FlatEvent) (g : String)
    (h1 : (animEventsOf events)[i1]? = some e1)
    (_h2 : (animEventsOf events)[i2]? = some e2)
    (hg1 : e1.group = some g) (hg2 : e2.group = some g) (hne : g ≠ "") :
    fadeOutStartUsed (animEventsOf events) (groupMap (animEventsOf events))
        i1 e1
      = fadeOutStartUsed (animEventsOf events) (groupMap (animEventsOf events))
        i2 e2 ∧
    ((∀ c ∈ groupTriggers (animEventsOf events) g, c ≠ none) →
     (∀ t ∈ finTriggers (animEventsOf events) g, 0 ≤ t) →
      ∃ M, fadeOutStartUsed (animEventsOf events)
            (groupMap (animEventsOf events)) i1 e1 = some M ∧
        M ∈ finTriggers (animEventsOf events) g ∧
        ∀ t ∈ finTriggers (animEventsOf events) g, t ≤ M) := by
  have hmem1 := contrib_mem_groupTriggers (animEventsOf events) g i1 e1 h1 hg1
  have hnil : groupTriggers (animEventsOf events) g ≠ [] :=
    List.ne_nil_of_mem hmem1
  obtain ⟨v, hv⟩ : ∃ v, groupMap (animEventsOf events) g = some v := by
    rw [groupMap_apply _ _ hne]
    exact foldl_combineTrig_isSome _ hnil
  constructor
  · rw [fadeOutStartUsed_of_gm _ _ i1 e1 g v hg1 hne hv,
      fadeOutStartUsed_of_gm _ _ i2 e2 g v hg2 hne hv]
  · intro hall hpos
    have hmap := all_some_eq_map_finTriggers _ hall
    have hfs : finTriggers (animEventsOf events) g ≠ [] := by
      intro hcon
      rw [finTriggers] at hcon
      rw [hmap, hcon] at hnil
      exact hnil rfl
    have hfold : groupMap (animEventsOf events) g
        = some (some ((finTriggers (animEventsOf events) g).foldl max 0)) := by
      rw [groupMap_apply _ _ hne]
      conv_lhs => rw [hmap]
      exact foldl_combineTrig_map_some_none _ hfs
    refine ⟨(finTriggers (animEventsOf events) g).foldl max 0,
      fadeOutStartUsed_of_gm _ _ i1 e1 g _ hg1 hne hfold, ?_, ?_⟩
    · rcases foldl_max_mem (finTriggers (animEventsOf events) g) 0 with h | h
      · obtain ⟨f0, t0, ht0⟩ :=
          List.exists_cons_of_ne_nil hfs
        have hle : f0 ≤ (finTriggers (animEventsOf events) g).foldl max 0 :=
          foldl_max_le_of_mem _ 0 f0 (by rw [ht0]; exact List.mem_cons_self _ _)
        have hge : 0 ≤ f0 := hpos f0 (by rw [ht0]; exact List.mem_cons_self _ _)
        have hf0 : f0 = 0 := le_antisymm (by rw [← h]; exact hle) hge
        rw [h, ← hf0]
        rw [ht0]
        exact List.mem_cons_self _ _
      · exact h
    · exact fun t ht => foldl_max_le_of_mem _ 0 t ht

/-- Witness for C3: two grouped events (a fillBox then a drawLine) in a
six-event animation list share the same fade-out trigger. -/
theorem group_synchrony_witness :
    fadeOutStartUsed (animEventsOf c3Events)
        (groupMap (animEventsOf c3Events)) 0 grpEvtA
      = fadeOutStartUsed (animEventsOf c3Events)
        (groupMap (animEventsOf c3Events)) 1 grpEvtB :=
  (group_synchrony c3Events 0 1 grpEvtA grpEvtB "g"
    (by simp [animEventsOf, c3Events, grpEvtA, grpEvtB, fillerEvt])
    (by simp [animEventsOf, c3Events, grpEvtA, grpEvtB, fillerEvt])
    rfl rfl (by simp)).1

/-- C10: if any member of a group has no lookahead target, every event of
that group has no fade-out: its envelope is the pure clamped fade-in ramp and
stays at 1 from its own fade-in end on (for a nonzero duration). -/
theorem group_never_fade (events : List FlatEvent) (fps frame : ℚ)
    (i j : ℕ) (e ej : FlatEvent) (g : String)
    (_hi : (animEventsOf events)[i]? = some e)
    (hj : (animEventsOf events)[j]? = some ej)
    (hgi : e.group = some g) (hgj : ej.group = some g) (hne : g ≠ "")
    (hlook : computeFadeOutStart (animEventsOf events) j ej = none) :
    fadeOutStartUsed (animEventsOf events) (groupMap (animEventsOf events))
        i e = none ∧
    eventEnvelope (animEventsOf events) (groupMap (animEventsOf events))
        fps frame i e
      = interpolate2 frame e.startFrame (e.startFrame + e.durationFrames) 0 1 ∧
    (0 < e.durationFrames → e.startFrame + e.durationFrames ≤ frame →
      eventEnvelope (animEventsOf events) (groupMap (animEventsOf events))
        fps frame i e = 1) := by
  have hmemj := contrib_mem_groupTriggers (animEventsOf events) g j ej hj hgj
  rw [hlook] at hmemj
  have hgm : groupMap (animEventsOf events) g = some none := by
    rw [groupMap_apply _ _ hne]
    exact foldl_combineTrig_of_mem_none _ none hmemj
  have hused : fadeOutStartUsed (animEventsOf events)
      (groupMap (animEventsOf events)) i e = none :=
    fadeOutStartUsed_of_gm _ _ i e g none hgi hne hgm
  have henv : eventEnvelope (animEventsOf events)
      (groupMap (animEventsOf events)) fps frame i e
      = interpolate2 frame e.startFrame (e.startFrame + e.durationFrames) 0 1 := by
    simp only [eventEnvelope, hused]
  refine ⟨hused, henv, fun hda hfr => ?_⟩
  rw [henv]
  exact interpolate2_eq_one _ _ _ (by intro hc; linarith) hfr

/-- Witness for C10: grpEvtB has a finite own lookahead, but its group also
contains grpLate whose lookahead is past the end of the list, so grpEvtB
never fades: its envelope is 1 at frame 100. -/
theorem group_never_fade_witness :
    eventEnvelope (animEventsOf c10Events) (groupMap (animEventsOf c10Events))
      30 100 1 grpEvtB = 1 :=
  (group_never_fade c10Events 30 100 1 3 grpEvtB grpLate "g"
    (by simp [animEventsOf, c10Events, grpEvtA, grpEvtB, fillerEvt, grpLate])
    (by simp [animEventsOf, c10Events, grpEvtA, grpEvtB, fillerEvt, grpLate])
    rfl rfl (by simp)
    (by simp [computeFadeOutStart, lookaheadOf, animEventsOf, c10Events,
      grpEvtA, grpEvtB, fillerEvt, grpLate])).2.2
    (by norm_num [grpEvtB]) (by norm_num [grpEvtB])

/-! ### Claim C6: flattening invariants -/

lemma jsOr_none {α : Type} (a : Option α) : jsOr a none = a := by
  cases a <;> rfl

lemma defaultDuration_nonneg (s : AnimationStep) : 0 ≤ defaultDuration s := by
  cases s <;> norm_num [defaultDuration]

lemma jround_mul_nonneg {q fps : ℚ} (hq : 0 ≤ q) (hfps : 0 ≤ fps) :
    0 ≤ jround (q * fps) :=
  jround_nonneg (mul_nonneg hq hfps)

lemma flattenPar_events_eq (fps : ℚ) (grp : Option String) (start : ℚ) :
    ∀ ss : List AnimationStep,
      (flattenPar fps ss grp start).1
        = ss.foldr (fun s acc => (flattenStep fps s grp start).1 ++ acc) [] := by
  intro ss
  induction ss with
  | nil => rfl
  | cons s rest ih =>
      simp only [flattenPar, List.foldr_cons]
      rw [ih]

lemma flattenPar_dur_nonneg (fps : ℚ) (grp : Option String) (start : ℚ) :
    ∀ ss : List AnimationStep, 0 ≤ (flattenPar fps ss grp start).2 := by
  intro ss
  induction ss with
  | nil => exact le_refl 0
  | cons s rest ih =>
      simp only [flattenPar]
      exact le_trans ih (le_max_right _ _)

mutual

theorem flattenStep_start (fps : ℚ) (s : AnimationStep)
    (pg : Option String) (c : ℚ) :
    ∀ e ∈ (flattenStep fps s pg c).1, e.startFrame = c := by
  cases s with
  | hold d =>
      intro e he
      simp only [flattenStep, List.mem_singleton] at he
      subst he
      rfl
  | parallel ss g =>
      intro e he
      simp only [flattenStep] at he
      exact flattenPar_start fps ss (jsOr g pg) c e he
  | fillBox t d lb g =>
      intro e he
      simp only [flattenStep, List.mem_singleton] at he
      subst he
      rfl
  | dimBox t d lb g =>
      intro e he
      simp only [flattenStep, List.mem_singleton] at he
      subst he
      rfl
  | drawLine t d lb g =>
      intro e he
      simp only [flattenStep, List.mem_singleton] at he
      subst he
      rfl
  | showContainer t d lb g =>
      intro e he
      simp only [flattenStep, List.mem_singleton] at he
      subst he
      rfl

theorem flattenPar_start (fps : ℚ) (ss : List AnimationStep)
    (grp : Option String) (start : ℚ) :
    ∀ e ∈ (flattenPar fps ss grp start).1, e.startFrame = start := by
  cases ss with
  | nil =>
      intro e he
      simp only [flattenPar, List.not_mem_nil] at he
  | cons s rest =>
      intro e he
      simp only [flattenPar] at he
      rcases List.mem_append.mp he with h | h
      · exact flattenStep_start fps s grp start e h
      · exact flattenPar_start fps rest grp start e h

end

lemma stepDur_nonneg {fps : ℚ} (hfps : 0 ≤ fps) (d : Option ℚ) (dflt : ℚ)
    (hd : 0 ≤ dflt)
    (hok : (match d with
            | none => true
            | some q => decide (0 ≤ q)) = true) :
    0 ≤ jround (d.getD dflt * fps) := by
  cases d with
  | none => exact jround_mul_nonneg hd hfps
  | some q => exact jround_mul_nonneg (of_decide_eq_true hok) hfps

lemma flattenStep_cursor_le (fps : ℚ) (hfps : 0 ≤ fps) (s : AnimationStep)
    (pg : Option String) (c : ℚ) (hok : stepDurOk s = true) :
    c ≤ (flattenStep fps s pg c).2 := by
  cases s with
  | hold d =>
      simp only [flattenStep]
      have := jround_mul_nonneg (of_decide_eq_true
        (by simpa [stepDurOk] using hok)) hfps
      linarith
  | parallel ss g =>
      simp only [flattenStep]
      have := flattenPar_dur_nonneg fps (jsOr g pg) c ss
      linarith
  | fillBox t d lb g =>
      simp only [flattenStep]
      have := stepDur_nonneg hfps d _ (defaultDuration_nonneg (.fillBox t d lb g))
        (by simpa [stepDurOk] using hok)
      linarith
  | dimBox t d lb g =>
      simp only [flattenStep]
      have := stepDur_nonneg hfps d _ (defaultDuration_nonneg (.dimBox t d lb g))
        (by simpa [stepDurOk] using hok)
      linarith
  | drawLine t d lb g =>
      simp only [flattenStep]
      have := stepDur_nonneg hfps d _ (defaultDuration_nonneg (.drawLine t d lb g))
        (by simpa [stepDurOk] using hok)
      linarith
  | showContainer t d lb g =>
      simp only [flattenStep]
      have := stepDur_nonneg hfps d _
        (defaultDuration_nonneg (.showContainer t d lb g))
        (by simpa [stepDurOk] using hok)
      linarith

mutual

theorem flattenStep_end_le (fps : ℚ) (hfps : 0 ≤ fps) (s : AnimationStep)
    (pg : Option String) (c : ℚ) (hok : stepDurOk s = true) :
    ∀ e ∈ (flattenStep fps s pg c).1,
      e.startFrame + e.durationFrames ≤ (flattenStep fps s pg c).2 := by
  cases s with
  | hold d =>
      intro e he
      simp only [flattenStep, List.mem_singleton] at he ⊢
      subst he
      exact le_refl _
  | parallel ss g =>
      intro e he
      simp only [flattenStep] at he ⊢
      have h := flattenPar_end_le fps hfps ss (jsOr g pg) c
        (by simpa [stepDurOk] using hok) e he
      linarith
  | fillBox t d lb g =>
      intro e he
      simp only [flattenStep, List.mem_singleton] at he ⊢
      subst he
      exact le_refl _
  | dimBox t d lb g =>
      intro e he
      simp only [flattenStep, List.mem_singleton] at he ⊢
      subst he
      exact le_refl _
  | drawLine t d lb g =>
      intro e he
      simp only [flattenStep, List.mem_singleton] at he ⊢
      subst he
      exact le_refl _
  | showContainer t d lb g =>
      intro e he
      simp only [flattenStep, List.mem_singleton] at he ⊢
      subst he
      exact le_refl _

theorem flattenPar_end_le (fps : ℚ) (hfps : 0 ≤ fps)
    (ss : List AnimationStep) (grp : Option String) (start : ℚ)
    (hok : stepsDurOk ss = true) :
    ∀ e ∈ (flattenPar fps ss grp start).1,
      e.startFrame + e.durationFrames
        ≤ start + (flattenPar fps ss grp start).2 := by
  cases ss with
  | nil =>
      intro e he
      simp only [flattenPar, List.not_mem_nil] at he
  | cons s rest =>
      intro e he
      obtain ⟨h1, h2⟩ : stepDurOk s = true ∧ stepsDurOk rest = true := by
        simpa [stepsDurOk, Bool.and_eq_true] using hok
      simp only [flattenPar] at he ⊢
      rcases List.mem_append.mp he with h | h
      · have := flattenStep_end_le fps hfps s grp start h1 e h
        have h3 := le_max_left ((flattenStep fps s grp start).2 - start)
          ((flattenPar fps rest grp start).2)
        linarith
      · have := flattenPar_end_le fps hfps rest grp start h2 e h
        have h3 := le_max_right ((flattenStep fps s grp start).2 - start)
          ((flattenPar fps rest grp start).2)
        linarith

end

lemma flattenSeq_cursor_le (fps : ℚ) (hfps : 0 ≤ fps) :
    ∀ (ss : List AnimationStep) (c : ℚ), stepsDurOk ss = true →
      c ≤ (flattenSeq fps ss c).2 := by
  intro ss
  induction ss with
  | nil =>
      intro c _
      simp only [flattenSeq]
      exact le_refl c
  | cons s rest ih =>
      intro c hok
      obtain ⟨h1, h2⟩ : stepDurOk s = true ∧ stepsDurOk rest = true := by
        simpa [stepsDurOk, Bool.and_eq_true] using hok
      simp only [flattenSeq]
      exact le_trans (flattenStep_cursor_le fps hfps s none c h1)
        (ih _ h2)

lemma flattenSeq_event_bounds (fps : ℚ) (hfps : 0 ≤ fps) :
    ∀ (ss : List AnimationStep) (c : ℚ), stepsDurOk ss = true →
      ∀ e ∈ (flattenSeq fps ss c).1,
        c ≤ e.startFrame ∧
          e.startFrame + e.durationFrames ≤ (flattenSeq fps ss c).2 := by
  intro ss
  induction ss with
  | nil =>
      intro c _ e he
      simp only [flattenSeq, List.not_mem_nil] at he
  | cons s rest ih =>
      intro c hok e he
      obtain ⟨h1, h2⟩ : stepDurOk s = true ∧ stepsDurOk rest = true := by
        simpa [stepsDurOk, Bool.and_eq_true] using hok
      simp only [flattenSeq] at he ⊢
      rcases List.mem_append.mp he with h | h
      · constructor
        · rw [flattenStep_start fps s none c e h]
        · exact le_trans (flattenStep_end_le fps hfps s none c h1 e h)
            (flattenSeq_cursor_le fps hfps rest _ h2)
      · have hb := ih ((flattenStep fps s none c).2) h2 e h
        exact ⟨le_trans (flattenStep_cursor_le fps hfps s none c h1) hb.1,
          hb.2⟩

lemma stepDurOk_of_mem : ∀ ss : List AnimationStep, stepsDurOk ss = true →
    ∀ s ∈ ss, stepDurOk s = true := by
  intro ss
  induction ss with
  | nil => intro _ s h; cases h
  | cons s0 rest ih =>
      intro hok s hs
      obtain ⟨ha, hb⟩ : stepDurOk s0 = true ∧ stepsDurOk rest = true := by
        simpa [stepsDurOk, Bool.and_eq_true] using hok
      rcases List.mem_cons.mp hs with h | h
      · subst h
        exact ha
      · exact ih hb s h

lemma mem_le_foldr_max (l : List ℚ) : ∀ x ∈ l, x ≤ l.foldr max 0 := by
  induction l with
  | nil => intro x h; cases h
  | cons c rest ih =>
      intro x h
      rw [List.foldr_cons]
      rcases List.mem_cons.mp h with hc | hc
      · subst hc
        exact le_max_left _ _
      · exact le_trans (ih x hc) (le_max_right _ _)

lemma foldr_max_mem_or (l : List ℚ) :
    l.foldr max 0 = 0 ∨ l.foldr max 0 ∈ l := by
  induction l with
  | nil => exact Or.inl rfl
  | cons c rest ih =>
      rw [List.foldr_cons]
      rcases max_choice c (rest.foldr max 0) with hm | hm
      · rw [hm]
        exact Or.inr (List.mem_cons_self c rest)
      · rw [hm]
        rcases ih with h0 | hmem
        · exact Or.inl h0
        · exact Or.inr (List.mem_cons_of_mem c hmem)

lemma foldr_max_spec (l : List ℚ) (hne : l ≠ []) (hpos : ∀ x ∈ l, 0 ≤ x) :
    l.foldr max 0 ∈ l ∧ ∀ x ∈ l, x ≤ l.foldr max 0 := by
  refine ⟨?_, mem_le_foldr_max l⟩
  rcases foldr_max_mem_or l with h0 | hmem
  · obtain ⟨f0, t0, ht0⟩ := List.exists_cons_of_ne_nil hne
    have hle : f0 ≤ l.foldr max 0 :=
      mem_le_foldr_max l f0 (by rw [ht0]; exact List.mem_cons_self _ _)
    have hge : 0 ≤ f0 := hpos f0 (by rw [ht0]; exact List.mem_cons_self _ _)
    have hf0 : f0 = 0 := le_antisymm (by rw [← h0]; exact hle) hge
    rw [h0, ← hf0, ht0]
    exact List.mem_cons_self _ _
  · exact hmem

lemma flattenPar_dur_eq (fps : ℚ) (grp : Option String) (start : ℚ) :
    ∀ ss : List AnimationStep,
      (flattenPar fps ss grp start).2
        = (ss.map (fun s => (flattenStep fps s grp start).2 - start)).foldr
            max 0 := by
  intro ss
  induction ss with
  | nil => rfl
  | cons s rest ih =>
      simp only [flattenPar, List.map_cons, List.foldr_cons]
      rw [ih]

/-- C6: flattening a parallel step at cursor c: every produced event starts
exactly at c; the event list is the concatenation of the children each
flattened from the same cursor c with the inherited group; the cursor
afterward is c plus the maximum child duration (attained by a child when the
children are nonempty with nonnegative durations); a leaf child's event
carries the child's own group, else the parallel's group; and sequential
steps never overlap: every event of a prefix ends before every event of the
remaining suffix starts. -/
theorem parallel_flattening (fps c : ℚ) (ss : List AnimationStep)
    (g : Option String) (pre post : List AnimationStep) :
    (∀ e ∈ (flattenStep fps (.parallel ss g) none c).1, e.startFrame = c) ∧
    ((flattenStep fps (.parallel ss g) none c).1
      = ss.foldr (fun s acc => (flattenStep fps s g c).1 ++ acc) []) ∧
    ((flattenStep fps (.parallel ss g) none c).2
      = c + (ss.map (fun s => (flattenStep fps s g c).2 - c)).foldr max 0) ∧
    (stepsDurOk ss = true → 0 ≤ fps → ss ≠ [] →
      ∃ M, (flattenStep fps (.parallel ss g) none c).2 = c + M ∧
        M ∈ ss.map (fun s => (flattenStep fps s g c).2 - c) ∧
        ∀ d ∈ ss.map (fun s => (flattenStep fps s g c).2 - c), d ≤ M) ∧
    (∀ s ∈ ss, isLeafAction s = true →
      ∀ e ∈ (flattenStep fps s g c).1, e.group = jsOr (stepGroupOf s) g) ∧
    (stepsDurOk pre = true → stepsDurOk post = true → 0 ≤ fps →
      ∀ e1 ∈ (flattenSeq fps pre c).1,
        ∀ e2 ∈ (flattenSeq fps post ((flattenSeq fps pre c).2)).1,
          e1.startFrame + e1.durationFrames ≤ e2.startFrame) := by
  have hpar1 : (flattenStep fps (.parallel ss g) none c).1
      = (flattenPar fps ss g c).1 := by
    simp only [flattenStep, jsOr_none]
  have hpar2 : (flattenStep fps (.parallel ss g) none c).2
      = c + (flattenPar fps ss g c).2 := by
    simp only [flattenStep, jsOr_none]
  refine ⟨?_, ?_, ?_, ?_, ?_, ?_⟩
  · intro e he
    rw [hpar1] at he
    exact flattenPar_start fps ss g c e he
  · rw [hpar1]
    exact flattenPar_events_eq fps g c ss
  · rw [hpar2, flattenPar_dur_eq fps g c ss]
  · intro hok hfps hne
    have hmapne : ss.map (fun s => (flattenStep fps s g c).2 - c) ≠ [] := by
      intro hcon
      exact hne (List.map_eq_nil_iff.mp hcon)
    have hpos : ∀ x ∈ ss.map (fun s => (flattenStep fps s g c).2 - c),
        0 ≤ x := by
      intro x hx
      obtain ⟨s, hs, hsx⟩ := List.mem_map.mp hx
      have hsok : stepDurOk s = true := stepDurOk_of_mem ss hok s hs
      have := flattenStep_cursor_le fps hfps s g c hsok
      linarith [hsx ▸ sub_nonneg.mpr this]
    obtain ⟨hmem, hdom⟩ := foldr_max_spec _ hmapne hpos
    exact ⟨_, by rw [hpar2, flattenPar_dur_eq fps g c ss], hmem, hdom⟩
  · intro s _ hleaf e he
    cases s with
    | hold d => simp [isLeafAction] at hleaf
    | parallel ss2 g2 => simp [isLeafAction] at hleaf
    | fillBox t d lb sg =>
        simp only [flattenStep, List.mem_singleton] at he
        subst he
        rfl
    | dimBox t d lb sg =>
        simp only [flattenStep, List.mem_singleton] at he
        subst he
        rfl
    | drawLine t d lb sg =>
        simp only [flattenStep, List.mem_singleton] at he
        subst he
        rfl
    | showContainer t d lb sg =>
        simp only [flattenStep, List.mem_singleton] at he
        subst he
        rfl
  · intro hok1 hok2 hfps e1 he1 e2 he2
    have hb1 := flattenSeq_event_bounds fps hfps pre c hok1 e1 he1
    have hb2 := flattenSeq_event_bounds fps hfps post
      ((flattenSeq fps pre c).2) hok2 e2 he2
    exact le_trans hb1.2 hb2.1

/-- Witness for C6: two sequential one-second holds at 10 fps occupy the
disjoint frame windows 0..10 and 10..20. -/
theorem parallel_flattening_witness :
    seqHoldEvt1.startFrame + seqHoldEvt1.durationFrames
      ≤ seqHoldEvt2.startFrame := by
  refine (parallel_flattening 10 0 c6Children (some "p")
    [AnimationStep.hold 1] [AnimationStep.hold 1]).2.2.2.2.2
    (by norm_num [stepsDurOk, stepDurOk]) (by norm_num [stepsDurOk, stepDurOk])
    (by norm_num) seqHoldEvt1 ?_ seqHoldEvt2 ?_
  · norm_num [flattenSeq, flattenStep, jround, seqHoldEvt1]
  · norm_num [flattenSeq, flattenStep, jround, seqHoldEvt1, seqHoldEvt2]

/-! ### Claim C7 -/

lemma except_bind_ok {a b : Type} (x : a) (f : a → Except LayoutErr b) :
    (Except.ok x : Except LayoutErr a) >>= f = f x := rfl

lemma except_bind_error {a b : Type} (e : LayoutErr)
    (f : a → Except LayoutErr b) :
    (Except.error e : Except LayoutErr a) >>= f
      = (Except.error e : Except LayoutErr b) := rfl

lemma autoRoute_head (f t : Point) (fe te : Edge) :
    (autoRoute f fe t te).head? = some f := by
  unfold autoRoute
  split_ifs <;> rfl

lemma autoRoute_getLast (f t : Point) (fe te : Edge) :
    (autoRoute f fe t te).getLast? = some t := by
  unfold autoRoute
  split_ifs <;> rfl

/-- C7 counterexample: connection from container C's declared right border to
node A (to the container's left), with no explicit edge overrides. The route
starts at the right-border anchor x = 1746, although dominant-axis inference
between the resolved endpoint centers yields the left edge, whose anchor
would be x = 954 — container endpoints are never routed through inferEdge. -/
theorem edge_inference_counterexample :
    ((resolveLayout c7Grid c7Nodes c7Containers [c7Conn] c7Theme).toOption.bind
      (fun l => l.connections.head?.bind (fun rc => rc.points.head?)))
      = some { x := 1746, y := 2352/5 } ∧
    ((resolveLayout c7Grid c7Nodes c7Containers [c7Conn] c7Theme).toOption.bind
      (fun l => (nLookup l.nodes "A").map (fun n => n.center)))
      = some { x := 450, y := 2352/5 } ∧
    ((resolveLayout c7Grid c7Nodes c7Containers [c7Conn] c7Theme).toOption.bind
      (fun l => (cLookup l.containers "C").map
        (fun cc => containerEdgePt cc LRSide.left (2352/5))))
      = some { x := 954, y := 2352/5 } ∧
    inferEdge { x := 1746, y := 2352/5 } { x := 450, y := 2352/5 }
      = Edge.left ∧
    ({ x := 1746, y := 2352/5 } : Point) ≠ { x := 954, y := 2352/5 } := by
  refine ⟨?_, ?_, ?_, by norm_num [inferEdge], by simp⟩ <;>
  · norm_num [resolveLayout, resolveConnections, resolveConnection, c7G,
      c7Grid, c7Theme, c7Nodes, c7Containers, c7Conn, gridGeom,
      resolveContainers, resolveContainer, resolveNodes, resolveNode,
      resolveNodeOuterOrAlign, outerCellCenter, innerCellCenterPt,
      getTargetCenter, nLookup, cLookup, chooseFromEdge, chooseToEdge,
      inferEdge, endpointAnchor, nodeEdge, nodeEdgePt, containerEdge,
      containerEdgePt, autoRoute, getConnectionId, targetIdString,
      except_bind_ok, except_bind_error, List.find?, Except.toOption]

/-- C7 (amended): when no explicit edge override is given, the edge used for
an endpoint is inferred from the dominant-axis delta of the resolved centers
only for node endpoints; a container endpoint is always anchored on the
left/right border declared in the reference itself. The route's first point
is the from anchor and its last point is the to anchor. -/
theorem edge_inference_amended (G : GridGeom)
    (rns : List (String × ResolvedNode))
    (rcs : List (String × ResolvedContainer)) (cdef : ConnectionDef)
    (rc : ResolvedConnection)
    (h : resolveConnection G rns rcs cdef = .ok rc) :
    (cdef.fromEdge = none → ∀ nid, cdef.fromT = .node nid →
      ∃ n fc tc, nLookup rns nid = some n ∧
        getTargetCenter G rns rcs cdef.fromT = .ok fc ∧
        getTargetCenter G rns rcs cdef.toT = .ok tc ∧ fc = n.center ∧
        rc.points.head? = some (nodeEdgePt n (inferEdge fc tc))) ∧
    (∀ cid side, cdef.fromT = .containerRef cid side →
      ∃ cc fc, cLookup rcs cid = some cc ∧
        getTargetCenter G rns rcs cdef.fromT = .ok fc ∧
        rc.points.head? = some (containerEdgePt cc side fc.y)) ∧
    (cdef.toEdge = none → ∀ nid, cdef.toT = .node nid →
      ∃ n fc tc, nLookup rns nid = some n ∧
        getTargetCenter G rns rcs cdef.fromT = .ok fc ∧
        getTargetCenter G rns rcs cdef.toT = .ok tc ∧ tc = n.center ∧
        rc.points.getLast? = some (nodeEdgePt n (inferEdge tc fc))) ∧
    (∀ cid side, cdef.toT = .containerRef cid side →
      ∃ cc tc, cLookup rcs cid = some cc ∧
        getTargetCenter G rns rcs cdef.toT = .ok tc ∧
        rc.points.getLast? = some (containerEdgePt cc side tc.y)) := by
  simp only [resolveConnection] at h
  cases hfc : getTargetCenter G rns rcs cdef.fromT with
  | error e => rw [hfc, except_bind_error] at h; simp at h
  | ok fc =>
  rw [hfc, except_bind_ok] at h
  cases htc : getTargetCenter G rns rcs cdef.toT with
  | error e => rw [htc, except_bind_error] at h; simp at h
  | ok tc =>
  rw [htc, except_bind_ok] at h
  cases hfp : endpointAnchor rns rcs cdef.fromT (chooseFromEdge cdef fc tc)
      fc.y with
  | error e => rw [hfp, except_bind_error] at h; simp at h
  | ok fp =>
  rw [hfp, except_bind_ok] at h
  cases htp : endpointAnchor rns rcs cdef.toT (chooseToEdge cdef fc tc)
      tc.y with
  | error e => rw [htp, except_bind_error] at h; simp at h
  | ok tp =>
  rw [htp, except_bind_ok] at h
  simp only [Except.ok.injEq] at h
  subst h
  have hhead : ∀ pts, pts = (match cdef.waypoints with
      | some ws => fp :: ws ++ [tp]
      | none => autoRoute fp (chooseFromEdge cdef fc tc) tp
          (chooseToEdge cdef fc tc)) → pts.head? = some fp := by
    intro pts hpts
    cases hw : cdef.waypoints with
    | none =>
        rw [hpts, hw]
        exact autoRoute_head fp tp _ _
    | some ws => rw [hpts, hw]; rfl
  have hlast : ∀ pts, pts = (match cdef.waypoints with
      | some ws => fp :: ws ++ [tp]
      | none => autoRoute fp (chooseFromEdge cdef fc tc) tp
          (chooseToEdge cdef fc tc)) → pts.getLast? = some tp := by
    intro pts hpts
    cases hw : cdef.waypoints with
    | none =>
        rw [hpts, hw]
        exact autoRoute_getLast fp tp _ _
    | some ws =>
        rw [hpts, hw]
        show ((fp :: ws) ++ [tp]).getLast? = some tp
        exact List.getLast?_concat _
  refine ⟨?_, ?_, ?_, ?_⟩
  · intro hfe nid hnode
    have hfc2 := hfc
    rw [hnode] at hfc2
    simp only [getTargetCenter] at hfc2
    cases hn : nLookup rns nid with
    | none => rw [hn] at hfc2; simp at hfc2
    | some n =>
        rw [hn] at hfc2
        simp only [Except.ok.injEq] at hfc2
        have hfp2 := hfp
        rw [hnode] at hfp2
        simp only [endpointAnchor, nodeEdge, hn, Except.ok.injEq] at hfp2
        have hedge : chooseFromEdge cdef fc tc = inferEdge fc tc := by
          simp only [chooseFromEdge, hfe, hnode]
        refine ⟨n, fc, tc, rfl, rfl, rfl, hfc2.symm, ?_⟩
        rw [hhead _ rfl, ← hfp2, hedge]
  · intro cid side hcont
    have hfc2 := hfc
    rw [hcont] at hfc2
    simp only [getTargetCenter] at hfc2
    cases hcc : cLookup rcs cid with
    | none => rw [hcc] at hfc2; simp at hfc2
    | some cc =>
        rw [hcc] at hfc2
        simp only [containerEdge, hcc, Except.ok.injEq] at hfc2
        have hfp2 := hfp
        rw [hcont] at hfp2
        simp only [endpointAnchor, containerEdge, hcc, Except.ok.injEq] at hfp2
        refine ⟨cc, fc, rfl, rfl, ?_⟩
        rw [hhead _ rfl, ← hfp2]
  · intro hte nid hnode
    have htc2 := htc
    rw [hnode] at htc2
    simp only [getTargetCenter] at htc2
    cases hn : nLookup rns nid with
    | none => rw [hn] at htc2; simp at htc2
    | some n =>
        rw [hn] at htc2
        simp only [Except.ok.injEq] at htc2
        have htp2 := htp
        rw [hnode] at htp2
        simp only [endpointAnchor, nodeEdge, hn, Except.ok.injEq] at htp2
        have hedge : chooseToEdge cdef fc tc = inferEdge tc fc := by
          simp only [chooseToEdge, hte, hnode]
        refine ⟨n, fc, tc, rfl, rfl, rfl, htc2.symm, ?_⟩
        rw [hlast _ rfl, ← htp2, hedge]
  · intro cid side hcont
    have htc2 := htc
    rw [hcont] at htc2
    simp only [getTargetCenter] at htc2
    cases hcc : cLookup rcs cid with
    | none => rw [hcc] at htc2; simp at htc2
    | some cc =>
        rw [hcc] at htc2
        simp only [containerEdge, hcc, Except.ok.injEq] at htc2
        have htp2 := htp
        rw [hcont] at htp2
        simp only [endpointAnchor, containerEdge, hcc, Except.ok.injEq] at htp2
        refine ⟨cc, tc, rfl, rfl, ?_⟩
        rw [hlast _ rfl, ← htp2]

/-- Witness for the amended C7: the concrete container-endpoint connection of
the counterexample configuration resolves, and the amended theorem applies to
it, producing its from anchor. -/
theorem edge_inference_amended_witness : c7Rc.points.head?.isSome = true := by
  have hres : resolveConnection c7G c7Rns c7Rcs c7Conn = Except.ok c7Rc := by
    norm_num [resolveConnection, c7G, c7Rns, c7Rcs, c7Conn, c7Rc, c7Grid,
      c7Theme, c7Nodes, c7Containers, gridGeom, resolveContainers,
      resolveContainer, resolveNodes, resolveNode, resolveNodeOuterOrAlign,
      outerCellCenter, innerCellCenterPt, getTargetCenter, nLookup, cLookup,
      chooseFromEdge, chooseToEdge, inferEdge, endpointAnchor, nodeEdge,
      nodeEdgePt, containerEdge, containerEdgePt, autoRoute, getConnectionId,
      targetIdString, except_bind_ok, except_bind_error, List.find?,
      Except.toOption]
    rfl
  obtain ⟨cc, fc, -, -, h3⟩ :=
    (edge_inference_amended c7G c7Rns c7Rcs c7Conn c7Rc hres).2.1 "C"
      LRSide.right rfl
  rw [h3]
  rfl

/-! ### Claim C8 -/

lemma lookup_reverse_none_iff {β : Type} (l : List (String × β))
    (id : String) :
    ((l.reverse.find? (fun p => decide (p.1 = id))).map (fun p => p.2) = none)
      ↔ id ∉ l.map Prod.fst := by
  rw [Option.map_eq_none', List.find?_eq_none]
  constructor
  · intro h hmem
    obtain ⟨p, hp, hpid⟩ := List.mem_map.mp hmem
    have := h p (List.mem_reverse.mpr hp)
    rw [decide_eq_true_eq] at this
    exact this hpid
  · intro h p hp
    rw [decide_eq_true_eq]
    intro hpid
    exact h (List.mem_map.mpr ⟨p, List.mem_reverse.mp hp, hpid⟩)

lemma cLookup_none_iff (rcs : List (String × ResolvedContainer))
    (id : String) :
    cLookup rcs id = none ↔ id ∉ rcs.map Prod.fst :=
  lookup_reverse_none_iff rcs id

lemma nLookup_none_iff (rns : List (String × ResolvedNode)) (id : String) :
    nLookup rns id = none ↔ id ∉ rns.map Prod.fst :=
  lookup_reverse_none_iff rns id

lemma resolveContainers_keys (G : GridGeom) (theme : Theme)
    (cs : List ContainerDef) :
    (resolveContainers G theme cs).map Prod.fst = cs.map (fun c => c.id) := by
  simp [resolveContainers, List.map_map]

lemma resolveNodes_ok_keys (G : GridGeom)
    (rcs : List (String × ResolvedContainer)) :
    ∀ (ns : List NodeDef) (rns : List (String × ResolvedNode)),
      resolveNodes G rcs ns = .ok rns →
      rns.map Prod.fst = ns.map (fun n => n.id) := by
  intro ns
  induction ns with
  | nil =>
      intro rns h
      simp only [resolveNodes, Except.ok.injEq] at h
      rw [← h]
      rfl
  | cons n rest ih =>
      intro rns h
      simp only [resolveNodes] at h
      cases hr : resolveNode G rcs n with
      | error e => rw [hr] at h; simp at h
      | ok r =>
          rw [hr] at h
          cases hrs : resolveNodes G rcs rest with
          | error e => rw [hrs] at h; simp at h
          | ok rs =>
              rw [hrs] at h
              simp only [Except.ok.injEq] at h
              rw [← h, List.map_cons, List.map_cons, ih rs hrs]

lemma resolveNodes_ok_mem (G : GridGeom)
    (rcs : List (String × ResolvedContainer)) :
    ∀ (ns : List NodeDef) (rns : List (String × ResolvedNode)),
      resolveNodes G rcs ns = .ok rns →
      ∀ n ∈ ns, ∃ r, resolveNode G rcs n = .ok r := by
  intro ns
  induction ns with
  | nil => intro rns _ n hn; cases hn
  | cons n0 rest ih =>
      intro rns h n hn
      simp only [resolveNodes] at h
      cases hr : resolveNode G rcs n0 with
      | error e => rw [hr] at h; simp at h
      | ok r =>
          rw [hr] at h
          cases hrs : resolveNodes G rcs rest with
          | error e => rw [hrs] at h; simp at h
          | ok rs =>
              rcases List.mem_cons.mp hn with h0 | h0
              · subst h0
                exact ⟨r, hr⟩
              · exact ih rs hrs n h0

lemma resolveNodes_error (G : GridGeom)
    (rcs : List (String × ResolvedContainer)) :
    ∀ (ns : List NodeDef) (e : LayoutErr),
      resolveNodes G rcs ns = .error e →
      ∃ n ∈ ns, resolveNode G rcs n = .error e := by
  intro ns
  induction ns with
  | nil => intro e h; simp [resolveNodes] at h
  | cons n0 rest ih =>
      intro e h
      simp only [resolveNodes] at h
      cases hr : resolveNode G rcs n0 with
      | error e2 =>
          rw [hr] at h
          simp only [Except.error.injEq] at h
          exact ⟨n0, List.mem_cons_self _ _, by rw [hr, h]⟩
      | ok r =>
          rw [hr] at h
          cases hrs : resolveNodes G rcs rest with
          | error e2 =>
              rw [hrs] at h
              simp only [Except.error.injEq] at h
              obtain ⟨n, hn, herr⟩ := ih e2 hrs
              exact ⟨n, List.mem_cons_of_mem _ hn, by rw [herr, h]⟩
          | ok rs => rw [hrs] at h; simp at h

lemma resolveConnections_ok_mem (G : GridGeom)
    (rns : List (String × ResolvedNode))
    (rcs : List (String × ResolvedContainer)) :
    ∀ (cs : List ConnectionDef) (out : List ResolvedConnection),
      resolveConnections G rns rcs cs = .ok out →
      ∀ c ∈ cs, ∃ rc, resolveConnection G rns rcs c = .ok rc := by
  intro cs
  induction cs with
  | nil => intro out _ c hc; cases hc
  | cons c0 rest ih =>
      intro out h c hc
      simp only [resolveConnections] at h
      cases hr : resolveConnection G rns rcs c0 with
      | error e => rw [hr] at h; simp at h
      | ok r =>
          rw [hr] at h
          cases hrs : resolveConnections G rns rcs rest with
          | error e => rw [hrs] at h; simp at h
          | ok rs =>
              rcases List.mem_cons.mp hc with h0 | h0
              · subst h0
                exact ⟨r, hr⟩
              · exact ih rs hrs c h0

lemma resolveConnections_error (G : GridGeom)
    (rns : List (String × ResolvedNode))
    (rcs : List (String × ResolvedContainer)) :
    ∀ (cs : List ConnectionDef) (e : LayoutErr),
      resolveConnections G rns rcs cs = .error e →
      ∃ c ∈ cs, resolveConnection G rns rcs c = .error e := by
  intro cs
  induction cs with
  | nil => intro e h; simp [resolveConnections] at h
  | cons c0 rest ih =>
      intro e h
      simp only [resolveConnections] at h
      cases hr : resolveConnection G rns rcs c0 with
      | error e2 =>
          rw [hr] at h
          simp only [Except.error.injEq] at h
          exact ⟨c0, List.mem_cons_self _ _, by rw [hr, h]⟩
      | ok r =>
          rw [hr] at h
          cases hrs : resolveConnections G rns rcs rest with
          | error e2 =>
              rw [hrs] at h
              simp only [Except.error.injEq] at h
              obtain ⟨c2, hc2, herr⟩ := ih e2 hrs
              exact ⟨c2, List.mem_cons_of_mem _ hc2, by rw [herr, h]⟩
          | ok rs => rw [hrs] at h; simp at h

lemma resolveNodeOuterOrAlign_error (G : GridGeom)
    (rcs : List (String × ResolvedContainer)) (n : NodeDef) (e : LayoutErr)
    (h : resolveNodeOuterOrAlign G rcs n = .error e) :
    ∃ a, n.alignToInnerCol = some a ∧
      e = .containerNotFound a.containerId ∧
      cLookup rcs a.containerId = none := by
  simp only [resolveNodeOuterOrAlign] at h
  cases ha : n.alignToInnerCol with
  | none => rw [ha] at h; simp at h
  | some a =>
      rw [ha] at h
      dsimp only at h
      cases hcc : cLookup rcs a.containerId with
      | none =>
          rw [hcc] at h
          simp only [Except.error.injEq] at h
          exact ⟨a, rfl, h.symm, hcc⟩
      | some c => rw [hcc] at h; simp at h

lemma resolveNode_error (G : GridGeom)
    (rcs : List (String × ResolvedContainer)) (n : NodeDef) (e : LayoutErr)
    (h : resolveNode G rcs n = .error e) :
    ∃ cid, e = .containerNotFound cid ∧ cLookup rcs cid = none := by
  cases hc : n.container with
  | none =>
      cases hic : n.innerCol with
      | none =>
          simp only [resolveNode, hc, hic] at h
          obtain ⟨a, -, he, hl⟩ := resolveNodeOuterOrAlign_error G rcs n e h
          exact ⟨a.containerId, he, hl⟩
      | some ic =>
          simp only [resolveNode, hc, hic] at h
          obtain ⟨a, -, he, hl⟩ := resolveNodeOuterOrAlign_error G rcs n e h
          exact ⟨a.containerId, he, hl⟩
  | some cid =>
      cases hic : n.innerCol with
      | none =>
          simp only [resolveNode, hc, hic] at h
          obtain ⟨a, -, he, hl⟩ := resolveNodeOuterOrAlign_error G rcs n e h
          exact ⟨a.containerId, he, hl⟩
      | some ic =>
          simp only [resolveNode, hc, hic] at h
          by_cases hcid : cid = ""
          · rw [if_pos hcid] at h
            obtain ⟨a, -, he, hl⟩ := resolveNodeOuterOrAlign_error G rcs n e h
            exact ⟨a.containerId, he, hl⟩
          · rw [if_neg hcid] at h
            cases hcc : cLookup rcs cid with
            | none =>
                rw [hcc] at h
                simp only [Except.error.injEq] at h
                exact ⟨cid, h.symm, hcc⟩
            | some c => rw [hcc] at h; simp at h

lemma resolveNode_ok_align (G : GridGeom)
    (rcs : List (String × ResolvedContainer)) (n : NodeDef)
    (r : ResolvedNode) (hwf : n.container = none)
    (h : resolveNode G rcs n = .ok r) :
    ∀ a, n.alignToInnerCol = some a → cLookup rcs a.containerId ≠ none := by
  intro a ha hcc
  cases hic : n.innerCol with
  | none =>
      simp only [resolveNode, hwf, hic, resolveNodeOuterOrAlign, ha, hcc] at h
      exact Except.noConfusion h
  | some ic =>
      simp only [resolveNode, hwf, hic, resolveNodeOuterOrAlign, ha, hcc] at h
      exact Except.noConfusion h

lemma getTargetCenter_ok_ref (G : GridGeom)
    (rns : List (String × ResolvedNode))
    (rcs : List (String × ResolvedContainer)) (t : ConnectionTarget)
    (p : Point) (h : getTargetCenter G rns rcs t = .ok p) :
    (∀ id, t = .node id → nLookup rns id ≠ none) ∧
    (∀ cid side, t = .containerRef cid side → cLookup rcs cid ≠ none) := by
  constructor
  · intro id hid hl
    rw [hid] at h
    simp only [getTargetCenter, hl] at h
    exact Except.noConfusion h
  · intro cid side hcid hl
    rw [hcid] at h
    simp only [getTargetCenter, hl] at h
    exact Except.noConfusion h

lemma getTargetCenter_error (G : GridGeom)
    (rns : List (String × ResolvedNode))
    (rcs : List (String × ResolvedContainer)) (t : ConnectionTarget)
    (e : LayoutErr) (h : getTargetCenter G rns rcs t = .error e) :
    (∀ id, e = .nodeNotFound id → nLookup rns id = none) ∧
    (∀ cid, e = .containerNotFound cid → cLookup rcs cid = none) := by
  cases t with
  | node nid =>
      simp only [getTargetCenter] at h
      cases hn : nLookup rns nid with
      | none =>
          rw [hn] at h
          simp only [Except.error.injEq] at h
          constructor
          · intro id hid
            rw [← h, LayoutErr.nodeNotFound.injEq] at hid
            rw [← hid]
            exact hn
          · intro cid hcid
            rw [← h] at hcid
            cases hcid
      | some n => rw [hn] at h; simp at h
  | containerRef cid2 side =>
      simp only [getTargetCenter] at h
      cases hcc : cLookup rcs cid2 with
      | none =>
          rw [hcc] at h
          simp only [Except.error.injEq] at h
          constructor
          · intro id hid
            rw [← h] at hid
            cases hid
          · intro cid hcid
            rw [← h, LayoutErr.containerNotFound.injEq] at hcid
            rw [← hcid]
            exact hcc
      | some cc =>
          rw [hcc] at h
          simp only [containerEdge] at h
          cases hcc2 : cLookup rcs cid2 with
          | none => cases (hcc2 ▸ hcc : (none : Option ResolvedContainer) = some cc)
          | some cc2 => rw [hcc2] at h; simp at h

lemma endpointAnchor_error (rns : List (String × ResolvedNode))
    (rcs : List (String × ResolvedContainer)) (t : ConnectionTarget)
    (ed : Edge) (y : ℚ) (e : LayoutErr)
    (h : endpointAnchor rns rcs t ed y = .error e) :
    (∀ id, e = .nodeNotFound id → nLookup rns id = none) ∧
    (∀ cid, e = .containerNotFound cid → cLookup rcs cid = none) := by
  cases t with
  | node nid =>
      simp only [endpointAnchor, nodeEdge] at h
      cases hn : nLookup rns nid with
      | none =>
          rw [hn] at h
          simp only [Except.error.injEq] at h
          constructor
          · intro id hid
            rw [← h, LayoutErr.nodeNotFound.injEq] at hid
            rw [← hid]
            exact hn
          · intro cid hcid
            rw [← h] at hcid
            cases hcid
      | some n => rw [hn] at h; simp at h
  | containerRef cid2 side =>
      simp only [endpointAnchor, containerEdge] at h
      cases hcc : cLookup rcs cid2 with
      | none =>
          rw [hcc] at h
          simp only [Except.error.injEq] at h
          constructor
          · intro id hid
            rw [← h] at hid
            cases hid
          · intro cid hcid
            rw [← h, LayoutErr.containerNotFound.injEq] at hcid
            rw [← hcid]
            exact hcc
      | some cc => rw [hcc] at h; simp at h

lemma resolveConnection_ok_refs (G : GridGeom)
    (rns : List (String × ResolvedNode))
    (rcs : List (String × ResolvedContainer)) (cdef : ConnectionDef)
    (rc : ResolvedConnection)
    (h : resolveConnection G rns rcs cdef = .ok rc) :
    ((∀ id, cdef.fromT = .node id → nLookup rns id ≠ none) ∧
     (∀ cid side, cdef.fromT = .containerRef cid side →
       cLookup rcs cid ≠ none)) ∧
    ((∀ id, cdef.toT = .node id → nLookup rns id ≠ none) ∧
     (∀ cid side, cdef.toT = .containerRef cid side →
       cLookup rcs cid ≠ none)) := by
  simp only [resolveConnection] at h
  cases hfc : getTargetCenter G rns rcs cdef.fromT with
  | error e => rw [hfc, except_bind_error] at h; simp at h
  | ok fc =>
  rw [hfc, except_bind_ok] at h
  cases htc : getTargetCenter G rns rcs cdef.toT with
  | error e => rw [htc, except_bind_error] at h; simp at h
  | ok tc =>
  exact ⟨getTargetCenter_ok_ref G rns rcs cdef.fromT fc hfc,
    getTargetCenter_ok_ref G rns rcs cdef.toT tc htc⟩

lemma resolveConnection_error (G : GridGeom)
    (rns : List (String × ResolvedNode))
    (rcs : List (String × ResolvedContainer)) (cdef : ConnectionDef)
    (e : LayoutErr) (h : resolveConnection G rns rcs cdef = .error e) :
    (∀ id, e = .nodeNotFound id → nLookup rns id = none) ∧
    (∀ cid, e = .containerNotFound cid → cLookup rcs cid = none) := by
  simp only [resolveConnection] at h
  cases hfc : getTargetCenter G rns rcs cdef.fromT with
  | error e2 =>
      rw [hfc, except_bind_error] at h
      simp only [Except.error.injEq] at h
      exact h ▸ getTargetCenter_error G rns rcs cdef.fromT e2 hfc
  | ok fc =>
  rw [hfc, except_bind_ok] at h
  cases htc : getTargetCenter G rns rcs cdef.toT with
  | error e2 =>
      rw [htc, except_bind_error] at h
      simp only [Except.error.injEq] at h
      exact h ▸ getTargetCenter_error G rns rcs cdef.toT e2 htc
  | ok tc =>
  rw [htc, except_bind_ok] at h
  cases hfp : endpointAnchor rns rcs cdef.fromT (chooseFromEdge cdef fc tc)
      fc.y with
  | error e2 =>
      rw [hfp, except_bind_error] at h
      simp only [Except.error.injEq] at h
      exact h ▸ endpointAnchor_error rns rcs cdef.fromT _ _ e2 hfp
  | ok fp =>
  rw [hfp, except_bind_ok] at h
  cases htp : endpointAnchor rns rcs cdef.toT (chooseToEdge cdef fc tc)
      tc.y with
  | error e2 =>
      rw [htp, except_bind_error] at h
      simp only [Except.error.injEq] at h
      exact h ▸ endpointAnchor_error rns rcs cdef.toT _ _ e2 htp
  | ok tp => rw [htp, except_bind_ok] at h; simp at h

lemma targetRefOk_of_lookups (nodes : List NodeDef)
    (containers : List ContainerDef) (rns : List (String × ResolvedNode))
    (rcs : List (String × ResolvedContainer)) (t : ConnectionTarget)
    (hkn : rns.map Prod.fst = nodes.map (fun n => n.id))
    (hkc : rcs.map Prod.fst = containers.map (fun c => c.id))
    (h1 : ∀ id, t = .node id → nLookup rns id ≠ none)
    (h2 : ∀ cid side, t = .containerRef cid side → cLookup rcs cid ≠ none) :
    targetRefOk nodes containers t := by
  cases t with
  | node id =>
      have hnn := h1 id rfl
      have hmem := not_not.mp
        (fun hmm => hnn ((nLookup_none_iff rns id).mpr hmm))
      rw [hkn] at hmem
      exact hmem
  | containerRef cid side =>
      have hnn := h2 cid side rfl
      have hmem := not_not.mp
        (fun hmm => hnn ((cLookup_none_iff rcs cid).mpr hmm))
      rw [hkc] at hmem
      exact hmem

/-- C8: under the data-model invariant that an aligned node is not itself
placed inside a container, layout resolution returns a full layout only when
every connection endpoint and every alignment references an existing id; any
missing reference aborts the whole resolution with an error whose message
contains the missing id (which is genuinely absent from its collection), and
no partial layout is ever returned. -/
theorem fatal_reference_errors (grid : GridConfig) (theme : Theme)
    (nodes : List NodeDef) (containers : List ContainerDef)
    (connections : List ConnectionDef)
    (hwf : ∀ n ∈ nodes, n.alignToInnerCol ≠ none → n.container = none) :
    (∀ l, resolveLayout grid nodes containers connections theme = .ok l →
      (∀ c ∈ connections, connRefsOk nodes containers c) ∧
      (∀ n ∈ nodes, alignRefOk containers n)) ∧
    (∀ e, resolveLayout grid nodes containers connections theme = .error e →
      ((∀ id, e = .nodeNotFound id → id ∉ nodes.map (fun n => n.id)) ∧
       (∀ id, e = .containerNotFound id →
         id ∉ containers.map (fun c => c.id))) ∧
      ∃ s1 s2 id, layoutErrMsg e = s1 ++ id ++ s2 ∧
        ((e = .nodeNotFound id ∧ id ∉ nodes.map (fun n => n.id)) ∨
         (e = .containerNotFound id ∧
           id ∉ containers.map (fun c => c.id)))) ∧
    (¬ ((∀ c ∈ connections, connRefsOk nodes containers c) ∧
        (∀ n ∈ nodes, alignRefOk containers n)) →
      ∃ e, resolveLayout grid nodes containers connections theme
        = .error e) := by
  have hkc := resolveContainers_keys (gridGeom grid theme) theme containers
  have hok : ∀ l, resolveLayout grid nodes containers connections theme
      = .ok l →
      (∀ c ∈ connections, connRefsOk nodes containers c) ∧
      (∀ n ∈ nodes, alignRefOk containers n) := by
    intro l h
    simp only [resolveLayout] at h
    cases hn : resolveNodes (gridGeom grid theme)
        (resolveContainers (gridGeom grid theme) theme containers) nodes with
    | error e2 => rw [hn, except_bind_error] at h; simp at h
    | ok rns =>
    rw [hn, except_bind_ok] at h
    cases hc : resolveConnections (gridGeom grid theme) rns
        (resolveContainers (gridGeom grid theme) theme containers)
        connections with
    | error e2 => rw [hc, except_bind_error] at h; simp at h
    | ok rconns =>
    have hkn := resolveNodes_ok_keys _ _ nodes rns hn
    constructor
    · intro c hcmem
      obtain ⟨rc, hrc⟩ := resolveConnections_ok_mem _ _ _ connections rconns
        hc c hcmem
      obtain ⟨⟨hf1, hf2⟩, ht1, ht2⟩ := resolveConnection_ok_refs _ _ _ c rc hrc
      exact ⟨targetRefOk_of_lookups nodes containers rns _ c.fromT hkn hkc
          hf1 hf2,
        targetRefOk_of_lookups nodes containers rns _ c.toT hkn hkc ht1 ht2⟩
    · intro n hnmem a ha
      obtain ⟨r, hr⟩ := resolveNodes_ok_mem _ _ nodes rns hn n hnmem
      have hcnone : n.container = none := by
        refine hwf n hnmem ?_
        rw [ha]
        exact fun hcon => Option.noConfusion hcon
      have hlook := resolveNode_ok_align _ _ n r hcnone hr a ha
      have hmem := not_not.mp
        (fun hmm => hlook ((cLookup_none_iff _ _).mpr hmm))
      rw [hkc] at hmem
      exact hmem
  have herr : ∀ e, resolveLayout grid nodes containers connections theme
      = .error e →
      (∀ id, e = .nodeNotFound id → id ∉ nodes.map (fun n => n.id)) ∧
      (∀ id, e = .containerNotFound id →
        id ∉ containers.map (fun c => c.id)) := by
    intro e h
    simp only [resolveLayout] at h
    cases hn : resolveNodes (gridGeom grid theme)
        (resolveContainers (gridGeom grid theme) theme containers) nodes with
    | error e2 =>
        rw [hn, except_bind_error] at h
        simp only [Except.error.injEq] at h
        subst h
        obtain ⟨n, hnmem, herr2⟩ := resolveNodes_error _ _ nodes e2 hn
        obtain ⟨cid, hcid, hlook⟩ := resolveNode_error _ _ n _ herr2
        constructor
        · intro id hid
          rw [hcid] at hid
          cases hid
        · intro id hid
          rw [hcid, LayoutErr.containerNotFound.injEq] at hid
          subst hid
          have := (cLookup_none_iff _ _).mp hlook
          rw [hkc] at this
          exact this
    | ok rns =>
        rw [hn, except_bind_ok] at h
        cases hc : resolveConnections (gridGeom grid theme) rns
            (resolveContainers (gridGeom grid theme) theme containers)
            connections with
        | error e2 =>
            rw [hc, except_bind_error] at h
            simp only [Except.error.injEq] at h
            subst h
            obtain ⟨c, hcmem, herr2⟩ := resolveConnections_error _ _ _
              connections e2 hc
            obtain ⟨hnf, hcf⟩ := resolveConnection_error _ _ _ c e2 herr2
            have hkn := resolveNodes_ok_keys _ _ nodes rns hn
            constructor
            · intro id hid
              have := (nLookup_none_iff _ _).mp (hnf id hid)
              rw [hkn] at this
              exact this
            · intro id hid
              have := (cLookup_none_iff _ _).mp (hcf id hid)
              rw [hkc] at this
              exact this
        | ok rconns => rw [hc, except_bind_ok] at h; simp at h
  refine ⟨hok, fun e h => ⟨herr e h, ?_⟩, fun hrefs => ?_⟩
  · cases e with
    | nodeNotFound id =>
        exact ⟨"Node \"", "\" not found in layout", id, rfl,
          Or.inl ⟨rfl, (herr _ h).1 id rfl⟩⟩
    | containerNotFound id =>
        exact ⟨"Container \"", "\" not found in layout", id, rfl,
          Or.inr ⟨rfl, (herr _ h).2 id rfl⟩⟩
  · cases hres : resolveLayout grid nodes containers connections theme with
    | error e => exact ⟨e, rfl⟩
    | ok l => exact absurd (hok l hres) hrefs

/-- Witness for C8: a connection referencing the unknown node id ghost makes
the whole resolution fail (no layout is produced). -/
theorem fatal_reference_errors_witness :
    (resolveLayout c7Grid c7Nodes c7Containers [c8BadConn] c7Theme).toOption
      = none := by
  have hwf : ∀ n ∈ c7Nodes, n.alignToInnerCol ≠ none → n.container = none := by
    intro n hn
    simp only [c7Nodes, List.mem_singleton] at hn
    subst hn
    intro hali
    exact absurd rfl hali
  have hbad : ¬ ((∀ c ∈ [c8BadConn], connRefsOk c7Nodes c7Containers c) ∧
      (∀ n ∈ c7Nodes, alignRefOk c7Containers n)) := by
    intro hcon
    have hfrom := (hcon.1 c8BadConn (List.mem_singleton.mpr rfl)).1
    simp [targetRefOk, c8BadConn, c7Nodes] at hfrom
  obtain ⟨e, he⟩ := (fatal_reference_errors c7Grid c7Theme c7Nodes
      c7Containers [c8BadConn] hwf).2.2 hbad
  rw [he]
  rfl

end Diagrams
